import Mathlib

/-!
# Slot repository of tg-schedule-bot

A shallow embedding of `internal/domain/models.go` and
`internal/store/json_store.go`, followed by the properties of the slot
repository that the specification states.

Modelling conventions.

* `time.Time` values are instants on an integer time line whose origin is the
  zero `time.Time`; `Before`, `After` and `Equal` are `<`, `>` and `=`.
* `domain.Status` is a Go string type, so a status is a `String`; the three
  named constants are the three literals of the source.
* Go's `int` user identifiers are `Int`.
* `map[string]domain.Slot` is a finite map with pairwise distinct keys
  (`AList`).  Go leaves the iteration order of a map unspecified; the order of
  the entries of the association list stands for the order one traversal takes.
  A nil map and an empty map are identified (they differ only in that storing
  into a nil map panics).
* An `error` is the message it carries, since the source builds every error
  with `fmt.Errorf` from a literal; `nil` is the absence of a message.
* The mutex of `JsonStore` is not part of the state: every function below is
  one call running alone.
* The environment a call consults is passed in: the values `rand.Int()`
  returns, the readings of `time.Now()`, the content of the file system.
-/

namespace domain

/-- The Go type `Status string`. -/
abbrev Status := String

/-- The constant `StatusFree`. -/
def StatusFree : Status := "free"

/-- The constant `StatusBusy`. -/
def StatusBusy : Status := "busy"

/-- The constant `StatusCanceled`. -/
def StatusCanceled : Status := "canceled"

/-- The struct `Slot` of `models.go`, field by field. -/
structure Slot where
  ID : String
  StartAt : Int
  EndAt : Int
  Status : domain.Status
  BookedBy : Int
  CreatedAt : Int
  UpdatedAt : Int
deriving DecidableEq, Repr

/-- The composite literal `domain.Slot{}`: every field at its zero value. -/
def Slot.zero : Slot :=
  { ID := "", StartAt := 0, EndAt := 0, Status := "", BookedBy := 0, CreatedAt := 0, UpdatedAt := 0 }

end domain

namespace store

open domain

/-- The type `map[string]domain.Slot`. -/
abbrev Table := AList (fun _ : String => Slot)

/-- The struct `JsonStore` without its mutex. -/
structure JsonStore where
  slots : Table
  dataPath : String

/-- Message of the error `CreateSlot` returns for an empty or reversed interval (`InvalidRange`). -/
def errInvalidRange : String := "invalid time range: startAt must be before endAt"

/-- Message of the error `CreateSlot` returns for an overlapping interval (`Conflict`). -/
def errConflict : String := "time slot conflicts with existing slot"

/-- Message of the error `CancelSlot` returns for an absent id (`NotFound`). -/
def errSlotDoesNotExist : String := "the specified slot does not exist"

/-- Message of the error `CancelSlot` returns for a canceled slot (`AlreadyCanceled`). -/
def errAlreadyCanceled : String := "slot already canceled"

/-- Message of the error `CancelSlot` returns for a status outside the three constants. -/
def errInvalidStatus : String := "invalid status"

/-- Message of the error `BookSlot` and `CancelBooking` return for an absent id (`NotFound`). -/
def errNotFound : String := "slot not found"

/-- Message of the error `BookSlot` and `CancelBooking` return for a busy slot (`AlreadyBooked`). -/
def errAlreadyBooked : String := "slot already booked"

/-- Message of the error `BookSlot` and `CancelBooking` return for a canceled slot (`Canceled`). -/
def errCanceled : String := "slot canceled"

/-- Message of the error `BookSlot` returns for a free slot that carries a user (`InvalidState`). -/
def errInvalidState : String := "invalid slot state"

/-- Message of the error `BookSlot` and `CancelBooking` return for a status outside the three constants. -/
def errStatus : String := "status error"

/-- Message of the error `CancelBooking` returns for a free slot (`NotBooked`). -/
def errNotBooked : String := "slot is not booked"

/-- The function `NewStore`: an empty map and the zero `dataPath`. -/
def NewStore : JsonStore :=
  { slots := ∅, dataPath := "" }

/-- The first loop of `CreateSlot`, over the entries one traversal of the map
visits: a canceled slot is skipped, an overlapping one ends the loop with
`true` (the conflict error), and the loop falls through with `false`. -/
def conflictLoop (startAt endAt : Int) : List (Sigma fun _ : String => Slot) → Bool
  | [] => false
  | existing :: rest =>
    if existing.2.Status = StatusCanceled then conflictLoop startAt endAt rest
    else if startAt < existing.2.EndAt ∧ endAt > existing.2.StartAt then true
    else conflictLoop startAt endAt rest

/-- The second loop of `CreateSlot`: `rand i` is what the `i`-th call of
`rand.Int()` returns and `Nat.repr` is `strconv.Itoa` on a non-negative
integer.  The source loop has no bound; `fuel` is the number of draws the
model follows, and `none` says that all of them were keys of the table. -/
def idLoop (slots : Table) (rand : Nat → Nat) : Nat → Option String
  | 0 => none
  | fuel + 1 =>
    let id := Nat.repr (rand 0)
    if (slots.lookup id).isSome then idLoop slots (fun i => rand (i + 1)) fuel
    else some id

/-- The method `CreateSlot`.  `now₁` and `now₂` are the two readings of
`time.Now()` in the composite literal.  The result is the returned pair
(the slot, or the error) together with the store after the call; `none` is a
call whose id loop is still running after `fuel` draws. -/
def CreateSlot (j : JsonStore) (startAt endAt : Int) (rand : Nat → Nat) (now₁ now₂ : Int)
    (fuel : Nat) : Option (Except String Slot × JsonStore) :=
  if startAt = endAt ∨ startAt > endAt then
    some (.error errInvalidRange, j)
  else if conflictLoop startAt endAt j.slots.entries then
    some (.error errConflict, j)
  else
    match idLoop j.slots rand fuel with
    | none => none
    | some id =>
      let newSlot : Slot :=
        { ID := id, StartAt := startAt, EndAt := endAt, Status := StatusFree, BookedBy := 0,
          CreatedAt := now₁, UpdatedAt := now₂ }
      some (.ok newSlot, { j with slots := j.slots.insert newSlot.ID newSlot })

/-- The method `CancelSlot`; `now` is the reading of `time.Now()`. -/
def CancelSlot (j : JsonStore) (slotID : String) (now : Int) : Except String Slot × JsonStore :=
  match j.slots.lookup slotID with
  | none => (.error errSlotDoesNotExist, j)
  | some slot =>
    if slot.Status = StatusCanceled then (.error errAlreadyCanceled, j)
    else if slot.Status = StatusBusy ∨ slot.Status = StatusFree then
      let slot := { slot with Status := StatusCanceled, UpdatedAt := now }
      (.ok slot, { j with slots := j.slots.insert slotID slot })
    else (.error errInvalidStatus, j)

/-- The method `GetSlot`. -/
def GetSlot (j : JsonStore) (slotID : String) : Slot × Bool :=
  match j.slots.lookup slotID with
  | none => (Slot.zero, false)
  | some slot => (slot, true)

/-- The method `ListSlots`, in the order the traversal visits the map. -/
def ListSlots (j : JsonStore) : List Slot :=
  j.slots.entries.foldl (fun listOfSlots item => listOfSlots ++ [item.2]) []

/-- The method `ListFreeSlots`, in the order the traversal visits the map. -/
def ListFreeSlots (j : JsonStore) : List Slot :=
  j.slots.entries.foldl
    (fun listOfFreeSlots item =>
      if item.2.Status = StatusFree then listOfFreeSlots ++ [item.2] else listOfFreeSlots) []

/-- The method `BookSlot`; `now` is the reading of `time.Now()`. -/
def BookSlot (j : JsonStore) (slotID : String) (userID : Int) (now : Int) :
    Except String Slot × JsonStore :=
  match j.slots.lookup slotID with
  | none => (.error errNotFound, j)
  | some slot =>
    if slot.Status = StatusBusy then (.error errAlreadyBooked, j)
    else if slot.Status = StatusCanceled then (.error errCanceled, j)
    else if slot.Status = StatusFree then
      if slot.BookedBy ≠ 0 then (.error errInvalidState, j)
      else
        let slot := { slot with Status := StatusBusy, BookedBy := userID, UpdatedAt := now }
        (.ok slot, { j with slots := j.slots.insert slotID slot })
    else (.error errStatus, j)

/-- The method `CancelBooking`: every branch of its switch returns an error,
`userID` is never read and the map is never written. -/
def CancelBooking (j : JsonStore) (slotID : String) (_userID : Int) :
    Except String Slot × JsonStore :=
  match j.slots.lookup slotID with
  | none => (.error errNotFound, j)
  | some slot =>
    if slot.Status = StatusBusy then (.error errAlreadyBooked, j)
    else if slot.Status = StatusCanceled then (.error errCanceled, j)
    else if slot.Status = StatusFree then (.error errNotBooked, j)
    else (.error errStatus, j)

/-- The method `ListSlotsByUser`: its body is the single statement `return`,
which reads neither `userID` nor the map; the result is the zero value of
`[]domain.Slot`, a slice without elements. -/
def ListSlotsByUser (_j : JsonStore) (_userID : Int) : List Slot :=
  []

/-- What `os.ReadFile` followed by `json.Unmarshal` makes of one path.
`encoding/json` is taken to be a faithful codec of `[]domain.Slot`: a file
that decodes is identified with the record sequence it decodes to. -/
inductive File where
  | missing
  | unreadable
  | malformed
  | records (slotsList : List Slot)
deriving DecidableEq, Repr

/-- The content of the file system, path by path. -/
abbrev Disk := String → File

/-- Leading text of the error `Load` returns when the file cannot be read. -/
def errReadFile : String := "failed to read file"

/-- Leading text of the error `Load` returns when the file does not decode. -/
def errParseJSON : String := "failed to parse json"

/-- Message of the error `Load` returns for a record without an id (`DataCorruption`). -/
def errEmptyID : String := "invalid data: slot has empty ID"

/-- Leading text of the error `Save` returns when `json.Marshal` fails. -/
def errMarshal : String := "could not be translated into json text"

/-- Leading text of the error `Save` returns when `os.WriteFile` fails. -/
def errWriteFile : String := "could not write the file"

/-- The loop of `Load` over the decoded records: a record without an id ends
the call with an error, any other record is stored under its id.  The result
is the error (if any) and the map as the loop leaves it. -/
def loadLoop (slots : Table) : List Slot → Option String × Table
  | [] => (none, slots)
  | slot :: rest =>
    if slot.ID = "" then (some errEmptyID, slots)
    else loadLoop (slots.insert slot.ID slot) rest

/-- The method `Load`, reading the file system `disk`.  The result is the
returned error and the store after the call.  The first statement of the
source replaces a nil map by an empty one; with the two identified it changes
nothing. -/
def Load (j : JsonStore) (disk : Disk) : Option String × JsonStore :=
  if j.dataPath = "" then (none, j)
  else
    match disk j.dataPath with
    | File.missing => (none, j)
    | File.unreadable => (some errReadFile, j)
    | File.malformed => (some errParseJSON, j)
    | File.records slotsList =>
      let r := loadLoop j.slots slotsList
      (r.1, { j with slots := r.2 })

/-- The outcomes of the two library calls of `Save` that the table does not
determine: whether `json.Marshal` returns an error, and whether `os.WriteFile`
returns one, in which case `failedWrite` is what it leaves at the path. -/
structure SaveEnv where
  marshalFails : Bool
  failedWrite : Option File

/-- The method `Save`, writing the file system `disk`.  The result is the
returned error and the file system after the call. -/
def Save (j : JsonStore) (disk : Disk) (env : SaveEnv) : Option String × Disk :=
  if j.dataPath = "" then (none, disk)
  else
    let allSlots := j.slots.entries.foldl (fun allSlots item => allSlots ++ [item.2]) []
    if env.marshalFails then (some errMarshal, disk)
    else
      match env.failedWrite with
      | some left => (some errWriteFile, Function.update disk j.dataPath left)
      | none => (none, Function.update disk j.dataPath (File.records allSlots))

/-- One call of a mutating method of the repository, from the store before to
the store after.  A call of `CreateSlot` whose id loop does not end has no
store after and is no step. -/
inductive Step : JsonStore → JsonStore → Prop where
  | createSlot (j : JsonStore) (startAt endAt : Int) (rand : Nat → Nat) (now₁ now₂ : Int)
      (fuel : Nat) (r : Except String Slot) (j' : JsonStore) :
      CreateSlot j startAt endAt rand now₁ now₂ fuel = some (r, j') → Step j j'
  | cancelSlot (j : JsonStore) (slotID : String) (now : Int) :
      Step j (CancelSlot j slotID now).2
  | bookSlot (j : JsonStore) (slotID : String) (userID now : Int) :
      Step j (BookSlot j slotID userID now).2
  | cancelBooking (j : JsonStore) (slotID : String) (userID : Int) :
      Step j (CancelBooking j slotID userID).2

/-- Any sequence of calls of `CreateSlot`, `CancelSlot`, `BookSlot` and `CancelBooking`. -/
def Steps : JsonStore → JsonStore → Prop :=
  Relation.ReflTransGen Step

/-- The stores a sequence of calls reaches from the store `NewStore` returns. -/
def Reachable (j : JsonStore) : Prop :=
  Steps NewStore j

/-- The half-open intervals of two slots overlap. -/
def Overlap (a b : Slot) : Prop :=
  a.StartAt < b.EndAt ∧ b.StartAt < a.EndAt

/-- The requested interval overlaps a slot of the table that is not canceled. -/
def Blocked (j : JsonStore) (startAt endAt : Int) : Prop :=
  ∃ id existing, j.slots.lookup id = some existing ∧ existing.Status ≠ StatusCanceled ∧
    startAt < existing.EndAt ∧ endAt > existing.StartAt

/-! ## Concrete stores and environments -/

/-- A store whose table holds a free slot `[10, 20)` under `"7"` and a
canceled slot `[20, 30)` under `"3"`. -/
def sampleStore : JsonStore :=
  { slots := ((∅ : Table).insert "7"
      { ID := "7", StartAt := 10, EndAt := 20, Status := StatusFree, BookedBy := 0,
        CreatedAt := 1, UpdatedAt := 1 }).insert "3"
      { ID := "3", StartAt := 20, EndAt := 30, Status := StatusCanceled, BookedBy := 0,
        CreatedAt := 2, UpdatedAt := 3 },
    dataPath := "" }

/-- A random source whose first draw is `7` and whose later draws are all `42`. -/
def sampleRand : Nat → Nat :=
  fun i => if i = 0 then 7 else 42

/-- The slot `CreateSlot` builds for `[10, 20)` when the draw is `7` and the clock reads `1`. -/
def slotA : Slot :=
  { ID := "7", StartAt := 10, EndAt := 20, Status := StatusFree, BookedBy := 0,
    CreatedAt := 1, UpdatedAt := 1 }

/-- The slot `CreateSlot` builds for `[20, 30)` when the draw is `42` and the clock reads `2`. -/
def slotB : Slot :=
  { ID := "42", StartAt := 20, EndAt := 30, Status := StatusFree, BookedBy := 0,
    CreatedAt := 2, UpdatedAt := 2 }

/-- The store after `CreateSlot(10, 20)` on the store of `NewStore`. -/
def storeA : JsonStore :=
  { slots := (∅ : Table).insert "7" slotA, dataPath := "" }

/-- The store after `CreateSlot(20, 30)` on `storeA`. -/
def storeAB : JsonStore :=
  { slots := storeA.slots.insert "42" slotB, dataPath := "" }

/-- The slot `slotA` once user `99` has booked it at clock reading `3`. -/
def slotABooked : Slot :=
  { slotA with Status := StatusBusy, BookedBy := 99, UpdatedAt := 3 }

/-- The store after `BookSlot("7", 99)` on `storeA`. -/
def storeABooked : JsonStore :=
  { slots := storeA.slots.insert "7" slotABooked, dataPath := "" }

/-- The sample store after `CreateSlot(20, 30)` with the draws `7`, `42`. -/
def sampleStoreNext : JsonStore :=
  { slots := sampleStore.slots.insert "42"
      { ID := "42", StartAt := 20, EndAt := 30, Status := StatusFree, BookedBy := 0,
        CreatedAt := 5, UpdatedAt := 6 },
    dataPath := "" }

/-- The table of `storeAB` as a traversal that visits `"7"` before `"42"` sees it. -/
def tableBA : Table :=
  ((∅ : Table).insert "42" slotB).insert "7" slotA

/-- A file system without any file. -/
def emptyDisk : Disk :=
  fun _ => File.missing

/-- Library calls of `Save` that all succeed. -/
def noFailure : SaveEnv :=
  { marshalFails := false, failedWrite := none }

/-- A fresh store whose persistence path is `"slots.json"`. -/
def freshStoreAt : JsonStore :=
  { slots := ∅, dataPath := "slots.json" }

/-- A file system whose file `"slots.json"` decodes to the record `slotA`
followed by a record without an id. -/
def corruptDisk : Disk :=
  fun path => if path = "slots.json" then File.records [slotA, Slot.zero] else File.missing

/-- The slot `slotABooked` once it has been canceled at clock reading `4`. -/
def slotACanceled : Slot :=
  { slotABooked with Status := StatusCanceled, UpdatedAt := 4 }

/-- The store after `CancelSlot("7")` on `storeABooked`. -/
def storeACanceled : JsonStore :=
  { slots := storeABooked.slots.insert "7" slotACanceled, dataPath := "" }

/-- A store whose slot `"7"` is free and yet carries the user `99`, as only a
loaded file can make it. -/
def storeStale : JsonStore :=
  { slots := (∅ : Table).insert "7" { slotA with BookedBy := 99 }, dataPath := "" }

/-- A random source every draw of which is `7`. -/
def stuckRand : Nat → Nat :=
  fun _ => 7

/-- The stores reachable when the readings of `time.Now()` never decrease
from one reading to the next: `ReachableAt t j` says that a sequence of calls
of `CreateSlot`, `CancelSlot`, `BookSlot` and `CancelBooking` leads from the
store of `NewStore` to `j`, each reading at least the reading before it and
none after `t`.  A call that returns an error reads no clock; it is the step
whose readings repeat the last one. -/
inductive ReachableAt : Int → JsonStore → Prop where
  | newStore (t : Int) : ReachableAt t NewStore
  | createSlot (t : Int) (j : JsonStore) (startAt endAt : Int) (rand : Nat → Nat)
      (now₁ now₂ : Int) (fuel : Nat) (r : Except String Slot) (j' : JsonStore) :
      ReachableAt t j → t ≤ now₁ → now₁ ≤ now₂ →
      CreateSlot j startAt endAt rand now₁ now₂ fuel = some (r, j') → ReachableAt now₂ j'
  | cancelSlot (t : Int) (j : JsonStore) (slotID : String) (now : Int) :
      ReachableAt t j → t ≤ now → ReachableAt now (CancelSlot j slotID now).2
  | bookSlot (t : Int) (j : JsonStore) (slotID : String) (userID now : Int) :
      ReachableAt t j → t ≤ now → ReachableAt now (BookSlot j slotID userID now).2
  | cancelBooking (t : Int) (j : JsonStore) (slotID : String) (userID : Int) :
      ReachableAt t j → ReachableAt t (CancelBooking j slotID userID).2

/-- What a method does to the mutex `mu` and to the map `slots`, as events in
the order of execution: a call of `j.mu.Lock()`, a call of `j.mu.Unlock()`
(written out or deferred to the return), an expression that reads or writes
`j.slots`. -/
inductive Event where
  | lock
  | unlock
  | access
deriving DecidableEq, Repr

/-- The lock discipline on the events of one call, `held` telling whether the
call holds the mutex so far: every access to the map happens while the call
holds the mutex, and the call does not hold it when it returns. -/
def lockDiscipline : Bool → List Event → Bool
  | held, [] => !held
  | _, Event.lock :: rest => lockDiscipline true rest
  | _, Event.unlock :: rest => lockDiscipline false rest
  | held, Event.access :: rest => held && lockDiscipline held rest

/-- The events of `BookSlot`: `j.mu.Lock()`, the deferred `j.mu.Unlock()` at
the return, and in between the lookup of the condition, the lookup that
initialises `slot` and, for a free slot without a user, the store into the
map. -/
def BookSlotEvents (j : JsonStore) (slotID : String) : List Event :=
  match j.slots.lookup slotID with
  | none => [Event.lock, Event.access, Event.unlock]
  | some slot =>
    if slot.Status = StatusFree ∧ slot.BookedBy = 0 then
      [Event.lock, Event.access, Event.access, Event.access, Event.unlock]
    else [Event.lock, Event.access, Event.access, Event.unlock]

/-- The events of `CancelBooking`: its first two statements are `j.mu.Lock()`
and `j.mu.Unlock()`, the second one not deferred; then come the lookup of the
condition and, for a key of the map, the lookup that initialises `slot`. -/
def CancelBookingEvents (j : JsonStore) (slotID : String) : List Event :=
  match j.slots.lookup slotID with
  | none => [Event.lock, Event.unlock, Event.access]
  | some _ => [Event.lock, Event.unlock, Event.access, Event.access]

/-- The events of `Load`, no statement of which names the mutex: the
comparison `j.slots == nil`, and one store into the map for every record up
to the first one without an id. -/
def LoadEvents (j : JsonStore) (disk : Disk) : List Event :=
  Event.access ::
    (if j.dataPath = "" then []
     else
       match disk j.dataPath with
       | File.records slotsList =>
         (slotsList.takeWhile fun slot => decide (slot.ID ≠ "")).map fun _ => Event.access
       | _ => [])

/-- The events of `Save`, no statement of which names the mutex: with a
persistence path, the traversal of the map. -/
def SaveEvents (j : JsonStore) : List Event :=
  if j.dataPath = "" then [] else [Event.access]

/-- One call of a method of the repository that can change the store or the
file system: a call of `CreateSlot`, `CancelSlot`, `BookSlot` or
`CancelBooking`, a call of `Load`, a call of `Save`.  The other methods
(`GetSlot` and the three listings) change neither. -/
inductive Call : JsonStore × Disk → JsonStore × Disk → Prop where
  | mutate (j j' : JsonStore) (disk : Disk) : Step j j' → Call (j, disk) (j', disk)
  | load (j : JsonStore) (disk : Disk) : Call (j, disk) ((Load j disk).2, disk)
  | save (j : JsonStore) (disk : Disk) (env : SaveEnv) :
      Call (j, disk) (j, (Save j disk env).2)

end store

namespace store

open domain

/-! ## The two loops of `CreateSlot` -/

theorem conflictLoop_iff (startAt endAt : Int) (l : List (Sigma fun _ : String => Slot)) :
    conflictLoop startAt endAt l = true ↔
      ∃ x ∈ l, x.2.Status ≠ StatusCanceled ∧ startAt < x.2.EndAt ∧ endAt > x.2.StartAt := by
  induction l with
  | nil => simp [conflictLoop]
  | cons x rest ih =>
    simp only [conflictLoop, List.mem_cons]
    split_ifs with h₁ h₂
    · rw [ih]
      constructor
      · rintro ⟨y, hy, h⟩
        exact ⟨y, Or.inr hy, h⟩
      · rintro ⟨y, hy | hy, h⟩
        · subst hy
          exact absurd h₁ h.1
        · exact ⟨y, hy, h⟩
    · simp only [true_iff]
      exact ⟨x, Or.inl rfl, h₁, h₂.1, h₂.2⟩
    · rw [ih]
      constructor
      · rintro ⟨y, hy, h⟩
        exact ⟨y, Or.inr hy, h⟩
      · rintro ⟨y, hy | hy, h⟩
        · subst hy
          exact absurd ⟨h.2.1, h.2.2⟩ h₂
        · exact ⟨y, hy, h⟩

theorem conflictLoop_iff_blocked (j : JsonStore) (startAt endAt : Int) :
    conflictLoop startAt endAt j.slots.entries = true ↔ Blocked j startAt endAt := by
  rw [conflictLoop_iff]
  constructor
  · rintro ⟨⟨id, existing⟩, hmem, h⟩
    exact ⟨id, existing, Option.mem_def.mp (AList.mem_lookup_iff.mpr hmem), h⟩
  · rintro ⟨id, existing, hlook, h⟩
    exact ⟨⟨id, existing⟩, AList.mem_lookup_iff.mp (Option.mem_def.mpr hlook), h⟩

theorem idLoop_fresh (slots : Table) (fuel : Nat) :
    ∀ (rand : Nat → Nat) (id : String), idLoop slots rand fuel = some id →
      slots.lookup id = none := by
  induction fuel with
  | zero => intro rand id h; simp [idLoop] at h
  | succ n ih =>
    intro rand id h
    simp only [idLoop] at h
    split_ifs at h with hc
    · exact ih _ id h
    · cases h
      simpa using hc

theorem idLoop_of_fresh (slots : Table) (fuel : Nat) :
    ∀ (rand : Nat → Nat) (k : Nat), slots.lookup (Nat.repr (rand k)) = none → k < fuel →
      ∃ id, idLoop slots rand fuel = some id := by
  induction fuel with
  | zero => intro rand k _ hk; omega
  | succ n ih =>
    intro rand k hfresh hk
    simp only [idLoop]
    split_ifs with hc
    · cases k with
      | zero => simp [hfresh] at hc
      | succ k => exact ih (fun i => rand (i + 1)) k hfresh (by omega)
    · exact ⟨_, rfl⟩

theorem idLoop_drawn (slots : Table) (fuel : Nat) :
    ∀ (rand : Nat → Nat) (id : String), idLoop slots rand fuel = some id →
      ∃ k, k < fuel ∧ id = Nat.repr (rand k) := by
  induction fuel with
  | zero => intro rand id h; simp [idLoop] at h
  | succ n ih =>
    intro rand id h
    simp only [idLoop] at h
    split_ifs at h with hc
    · obtain ⟨k, hk, hid⟩ := ih _ id h
      exact ⟨k + 1, by omega, hid⟩
    · cases h
      exact ⟨0, by omega, rfl⟩

/-! ## What a call of `CreateSlot` returns -/

theorem CreateSlot_invalid (j : JsonStore) (startAt endAt : Int) (rand : Nat → Nat)
    (now₁ now₂ : Int) (fuel : Nat) (h : endAt ≤ startAt) :
    CreateSlot j startAt endAt rand now₁ now₂ fuel = some (.error errInvalidRange, j) := by
  have hc : startAt = endAt ∨ startAt > endAt := by omega
  simp [CreateSlot, hc]

theorem CreateSlot_blocked (j : JsonStore) (startAt endAt : Int) (rand : Nat → Nat)
    (now₁ now₂ : Int) (fuel : Nat) (h : startAt < endAt) (hb : Blocked j startAt endAt) :
    CreateSlot j startAt endAt rand now₁ now₂ fuel = some (.error errConflict, j) := by
  have hc : ¬ (startAt = endAt ∨ startAt > endAt) := by omega
  simp [CreateSlot, hc, (conflictLoop_iff_blocked j startAt endAt).mpr hb]

theorem CreateSlot_clear (j : JsonStore) (startAt endAt : Int) (rand : Nat → Nat)
    (now₁ now₂ : Int) (fuel : Nat) (h : startAt < endAt) (hb : ¬ Blocked j startAt endAt) :
    CreateSlot j startAt endAt rand now₁ now₂ fuel =
      (idLoop j.slots rand fuel).map fun id =>
        (.ok { ID := id, StartAt := startAt, EndAt := endAt, Status := StatusFree, BookedBy := 0,
               CreatedAt := now₁, UpdatedAt := now₂ },
         { j with slots := (j.slots.insert id
            { ID := id, StartAt := startAt, EndAt := endAt, Status := StatusFree, BookedBy := 0,
              CreatedAt := now₁, UpdatedAt := now₂ }) }) := by
  have hc : ¬ (startAt = endAt ∨ startAt > endAt) := by omega
  have hl : conflictLoop startAt endAt j.slots.entries = false := by
    rw [← Bool.not_eq_true, conflictLoop_iff_blocked]
    exact hb
  simp only [CreateSlot, hc, hl, if_false, Bool.false_eq_true]
  cases idLoop j.slots rand fuel <;> rfl

/-! ## Creation -/

/-- C1, amended: for every table, every interval with `startAt < endAt` that
overlaps no slot of the table other than canceled ones, and every random
source one of whose draws (the `k`-th) is not a key of the table, a call of
`CreateSlot` that is followed for more than `k` draws returns without an
error; the
returned slot is free, booked by nobody, carries exactly the given interval,
and `GetSlot` on its id in the store after the call returns that slot with
`found = true`. -/
theorem CreateSlot_succeeds (j : JsonStore) (startAt endAt : Int) (rand : Nat → Nat)
    (now₁ now₂ : Int) (k fuel : Nat) (hrange : startAt < endAt)
    (hclear : ∀ id existing, j.slots.lookup id = some existing →
      existing.Status ≠ StatusCanceled →
      ¬ (startAt < existing.EndAt ∧ endAt > existing.StartAt))
    (hdraw : j.slots.lookup (Nat.repr (rand k)) = none) (hfuel : k < fuel) :
    ∃ slot j', CreateSlot j startAt endAt rand now₁ now₂ fuel = some (.ok slot, j') ∧
      slot.Status = StatusFree ∧ slot.BookedBy = 0 ∧
      slot.StartAt = startAt ∧ slot.EndAt = endAt ∧
      GetSlot j' slot.ID = (slot, true) := by
  have hb : ¬ Blocked j startAt endAt := by
    rintro ⟨id, existing, hlook, hst, h₁, h₂⟩
    exact hclear id existing hlook hst ⟨h₁, h₂⟩
  obtain ⟨id, hid⟩ := idLoop_of_fresh j.slots fuel rand k hdraw hfuel
  rw [CreateSlot_clear j startAt endAt rand now₁ now₂ fuel hrange hb, hid]
  refine ⟨_, _, rfl, rfl, rfl, rfl, rfl, ?_⟩
  simp [GetSlot, AList.lookup_insert]

/-- Witness of C1, amended: in the sample table the interval `[20, 30)` touches the
free slot `[10, 20)` and coincides with a canceled slot; the first draw
collides with the key `"7"` and the second is unused. -/
theorem CreateSlot_succeeds_witness :
    ∃ slot j', CreateSlot sampleStore 20 30 sampleRand 5 6 2 = some (.ok slot, j') ∧
      slot.Status = StatusFree ∧ slot.BookedBy = 0 ∧
      slot.StartAt = 20 ∧ slot.EndAt = 30 ∧
      GetSlot j' slot.ID = (slot, true) :=
  CreateSlot_succeeds sampleStore 20 30 sampleRand 5 6 1 2 (by decide)
    (by
      intro id existing hlook hst
      have hmem := AList.mem_lookup_iff.mp (Option.mem_def.mpr hlook)
      have hcases : (⟨id, existing⟩ : Sigma fun _ : String => Slot) ∈ sampleStore.slots.entries :=
        hmem
      have hent : sampleStore.slots.entries =
          [⟨"3", { ID := "3", StartAt := 20, EndAt := 30, Status := StatusCanceled, BookedBy := 0,
                   CreatedAt := 2, UpdatedAt := 3 }⟩,
           ⟨"7", { ID := "7", StartAt := 10, EndAt := 20, Status := StatusFree, BookedBy := 0,
                   CreatedAt := 1, UpdatedAt := 1 }⟩] := by decide
      rw [hent] at hcases
      simp only [List.mem_cons, List.mem_singleton, List.not_mem_nil, or_false] at hcases
      rcases hcases with h | h
      · cases h
        exact absurd rfl hst
      · cases h
        decide)
    (by decide) (by decide)

/-- C3: for every table and every interval with `startAt < endAt`,
`CreateSlot` returns the conflict error exactly when some slot of the table
whose status is not canceled satisfies `startAt < existing.EndAt` and
`endAt > existing.StartAt`; and whenever `CreateSlot` returns an error the
store after the call is the store before it. -/
theorem CreateSlot_conflict_iff (j : JsonStore) (startAt endAt : Int) (rand : Nat → Nat)
    (now₁ now₂ : Int) (fuel : Nat) (hrange : startAt < endAt) :
    ((∃ j', CreateSlot j startAt endAt rand now₁ now₂ fuel = some (.error errConflict, j')) ↔
      ∃ id existing, j.slots.lookup id = some existing ∧ existing.Status ≠ StatusCanceled ∧
        startAt < existing.EndAt ∧ endAt > existing.StartAt) ∧
    (∀ msg j', CreateSlot j startAt endAt rand now₁ now₂ fuel = some (.error msg, j') →
      j' = j) := by
  by_cases hb : Blocked j startAt endAt
  · rw [CreateSlot_blocked j startAt endAt rand now₁ now₂ fuel hrange hb]
    refine ⟨⟨fun _ => hb, fun _ => ⟨j, rfl⟩⟩, ?_⟩
    intro msg j' h
    injection h with h
    injection h with _ h
    exact h.symm
  · rw [CreateSlot_clear j startAt endAt rand now₁ now₂ fuel hrange hb]
    cases idLoop j.slots rand fuel with
    | none => exact ⟨⟨fun ⟨_, h⟩ => by simp at h, fun h => absurd h hb⟩, fun _ _ h => by simp at h⟩
    | some id =>
      exact ⟨⟨fun ⟨_, h⟩ => by simp at h, fun h => absurd h hb⟩, fun _ _ h => by simp at h⟩

/-- Witness of C3: on the sample table the interval `[15, 25)` overlaps the
free slot `[10, 20)`. -/
theorem CreateSlot_conflict_iff_witness :
    ((∃ j', CreateSlot sampleStore 15 25 sampleRand 5 6 2 = some (.error errConflict, j')) ↔
      ∃ id existing, sampleStore.slots.lookup id = some existing ∧
        existing.Status ≠ StatusCanceled ∧ 15 < existing.EndAt ∧ 25 > existing.StartAt) ∧
    (∀ msg j', CreateSlot sampleStore 15 25 sampleRand 5 6 2 = some (.error msg, j') →
      j' = sampleStore) :=
  CreateSlot_conflict_iff sampleStore 15 25 sampleRand 5 6 2 (by decide)

/-- C4: for every table and every interval with `startAt ≥ endAt`,
`CreateSlot` returns the invalid-range error, whatever the table holds, and
the store after the call is the store before it. -/
theorem CreateSlot_invalid_range (j : JsonStore) (startAt endAt : Int) (rand : Nat → Nat)
    (now₁ now₂ : Int) (fuel : Nat) (hrange : startAt ≥ endAt) :
    CreateSlot j startAt endAt rand now₁ now₂ fuel = some (.error errInvalidRange, j) :=
  CreateSlot_invalid j startAt endAt rand now₁ now₂ fuel hrange

/-- Witness of C4: an empty interval and a reversed one on the sample table. -/
theorem CreateSlot_invalid_range_witness :
    CreateSlot sampleStore 20 20 sampleRand 5 6 0 = some (.error errInvalidRange, sampleStore) ∧
    CreateSlot sampleStore 30 20 sampleRand 5 6 0 = some (.error errInvalidRange, sampleStore) :=
  ⟨CreateSlot_invalid_range sampleStore 20 20 sampleRand 5 6 0 (by decide),
   CreateSlot_invalid_range sampleStore 30 20 sampleRand 5 6 0 (by decide)⟩

/-! ## What the other mutating calls return -/

theorem status_busy_ne_canceled : StatusBusy ≠ StatusCanceled := by decide

theorem status_free_ne_canceled : StatusFree ≠ StatusCanceled := by decide

theorem status_free_ne_busy : StatusFree ≠ StatusBusy := by decide

theorem CancelSlot_absent (j : JsonStore) (slotID : String) (now : Int)
    (h : j.slots.lookup slotID = none) :
    CancelSlot j slotID now = (.error errSlotDoesNotExist, j) := by
  simp [CancelSlot, h]

theorem CancelSlot_canceled (j : JsonStore) (slotID : String) (now : Int) (slot : Slot)
    (h : j.slots.lookup slotID = some slot) (hs : slot.Status = StatusCanceled) :
    CancelSlot j slotID now = (.error errAlreadyCanceled, j) := by
  simp [CancelSlot, h, hs]

theorem CancelSlot_live (j : JsonStore) (slotID : String) (now : Int) (slot : Slot)
    (h : j.slots.lookup slotID = some slot)
    (hs : slot.Status = StatusBusy ∨ slot.Status = StatusFree) :
    CancelSlot j slotID now =
      (.ok { slot with Status := StatusCanceled, UpdatedAt := now },
       { j with slots := (j.slots.insert slotID
          { slot with Status := StatusCanceled, UpdatedAt := now }) }) := by
  have hc : slot.Status ≠ StatusCanceled := by
    rcases hs with hs | hs <;> rw [hs]
    · exact status_busy_ne_canceled
    · exact status_free_ne_canceled
  simp [CancelSlot, h, hc, hs]

theorem CancelSlot_other (j : JsonStore) (slotID : String) (now : Int) (slot : Slot)
    (h : j.slots.lookup slotID = some slot) (hc : slot.Status ≠ StatusCanceled)
    (hs : ¬ (slot.Status = StatusBusy ∨ slot.Status = StatusFree)) :
    CancelSlot j slotID now = (.error errInvalidStatus, j) := by
  simp [CancelSlot, h, hc, hs]

theorem BookSlot_absent (j : JsonStore) (slotID : String) (userID now : Int)
    (h : j.slots.lookup slotID = none) :
    BookSlot j slotID userID now = (.error errNotFound, j) := by
  simp [BookSlot, h]

theorem BookSlot_busy (j : JsonStore) (slotID : String) (userID now : Int) (slot : Slot)
    (h : j.slots.lookup slotID = some slot) (hs : slot.Status = StatusBusy) :
    BookSlot j slotID userID now = (.error errAlreadyBooked, j) := by
  simp [BookSlot, h, hs]

theorem BookSlot_canceled (j : JsonStore) (slotID : String) (userID now : Int) (slot : Slot)
    (h : j.slots.lookup slotID = some slot) (hs : slot.Status = StatusCanceled) :
    BookSlot j slotID userID now = (.error errCanceled, j) := by
  simp [BookSlot, h, hs, status_busy_ne_canceled.symm]

theorem BookSlot_free (j : JsonStore) (slotID : String) (userID now : Int) (slot : Slot)
    (h : j.slots.lookup slotID = some slot) (hs : slot.Status = StatusFree)
    (hz : slot.BookedBy = 0) :
    BookSlot j slotID userID now =
      (.ok { slot with Status := StatusBusy, BookedBy := userID, UpdatedAt := now },
       { j with slots := (j.slots.insert slotID
          { slot with Status := StatusBusy, BookedBy := userID, UpdatedAt := now }) }) := by
  simp [BookSlot, h, hs, hz, status_free_ne_busy, status_free_ne_canceled]

theorem BookSlot_free_stale (j : JsonStore) (slotID : String) (userID now : Int) (slot : Slot)
    (h : j.slots.lookup slotID = some slot) (hs : slot.Status = StatusFree)
    (hz : slot.BookedBy ≠ 0) :
    BookSlot j slotID userID now = (.error errInvalidState, j) := by
  simp [BookSlot, h, hs, hz, status_free_ne_busy, status_free_ne_canceled]

theorem BookSlot_other (j : JsonStore) (slotID : String) (userID now : Int) (slot : Slot)
    (h : j.slots.lookup slotID = some slot) (hb : slot.Status ≠ StatusBusy)
    (hc : slot.Status ≠ StatusCanceled) (hf : slot.Status ≠ StatusFree) :
    BookSlot j slotID userID now = (.error errStatus, j) := by
  simp [BookSlot, h, hb, hc, hf]

theorem CancelBooking_unchanged (j : JsonStore) (slotID : String) (userID : Int) :
    (CancelBooking j slotID userID).2 = j := by
  unfold CancelBooking
  split
  · rfl
  · split_ifs <;> rfl

theorem CancelBooking_fails (j : JsonStore) (slotID : String) (userID : Int) :
    ∃ msg, (CancelBooking j slotID userID).1 = .error msg := by
  unfold CancelBooking
  split
  · exact ⟨_, rfl⟩
  · split_ifs <;> exact ⟨_, rfl⟩

/-- The effect of one step on the store: nothing, a new free slot under an
unused key, a slot turned canceled, or a free slot turned busy. -/
theorem Step_effect {j j' : JsonStore} (h : Step j j') :
    j' = j ∨
    (∃ id slot, j.slots.lookup id = none ∧ slot.ID = id ∧ (∃ n : Nat, id = Nat.repr n) ∧
      slot.Status = StatusFree ∧ slot.BookedBy = 0 ∧ slot.StartAt < slot.EndAt ∧
      ¬ Blocked j slot.StartAt slot.EndAt ∧
      j' = { j with slots := j.slots.insert id slot }) ∨
    (∃ id slot now, j.slots.lookup id = some slot ∧
      (slot.Status = StatusBusy ∨ slot.Status = StatusFree) ∧
      j' = { j with slots := (j.slots.insert id
        { slot with Status := StatusCanceled, UpdatedAt := now }) }) ∨
    (∃ id slot userID now, j.slots.lookup id = some slot ∧
      slot.Status = StatusFree ∧ slot.BookedBy = 0 ∧
      j' = { j with slots := (j.slots.insert id
        { slot with Status := StatusBusy, BookedBy := userID, UpdatedAt := now }) }) := by
  cases h with
  | createSlot startAt endAt rand now₁ now₂ fuel r _ hc =>
    by_cases hr : startAt < endAt
    · by_cases hb : Blocked j startAt endAt
      · rw [CreateSlot_blocked j startAt endAt rand now₁ now₂ fuel hr hb] at hc
        left
        injection hc with hc
        injection hc with _ hc
        exact hc.symm
      · rw [CreateSlot_clear j startAt endAt rand now₁ now₂ fuel hr hb] at hc
        cases hid : idLoop j.slots rand fuel with
        | none => simp [hid] at hc
        | some id =>
          rw [hid] at hc
          simp only [Option.map_some', Option.some.injEq, Prod.mk.injEq] at hc
          right; left
          obtain ⟨n, _, hn⟩ := idLoop_drawn j.slots fuel rand id hid
          exact ⟨id, _, idLoop_fresh j.slots fuel rand id hid, rfl, ⟨_, hn⟩, rfl, rfl, hr, hb,
            hc.2.symm⟩
    · rw [CreateSlot_invalid j startAt endAt rand now₁ now₂ fuel (by omega)] at hc
      left
      injection hc with hc
      injection hc with _ hc
      exact hc.symm
  | cancelSlot slotID now =>
    cases hl : j.slots.lookup slotID with
    | none => left; rw [CancelSlot_absent j slotID now hl]
    | some slot =>
      by_cases hc : slot.Status = StatusCanceled
      · left; rw [CancelSlot_canceled j slotID now slot hl hc]
      · by_cases hs : slot.Status = StatusBusy ∨ slot.Status = StatusFree
        · right; right; left
          rw [CancelSlot_live j slotID now slot hl hs]
          exact ⟨slotID, slot, now, hl, hs, rfl⟩
        · left; rw [CancelSlot_other j slotID now slot hl hc hs]
  | bookSlot slotID userID now =>
    cases hl : j.slots.lookup slotID with
    | none => left; rw [BookSlot_absent j slotID userID now hl]
    | some slot =>
      by_cases hb : slot.Status = StatusBusy
      · left; rw [BookSlot_busy j slotID userID now slot hl hb]
      · by_cases hc : slot.Status = StatusCanceled
        · left; rw [BookSlot_canceled j slotID userID now slot hl hc]
        · by_cases hf : slot.Status = StatusFree
          · by_cases hz : slot.BookedBy = 0
            · right; right; right
              rw [BookSlot_free j slotID userID now slot hl hf hz]
              exact ⟨slotID, slot, userID, now, hl, hf, hz, rfl⟩
            · left; rw [BookSlot_free_stale j slotID userID now slot hl hf hz]
          · left; rw [BookSlot_other j slotID userID now slot hl hb hc hf]
  | cancelBooking slotID userID =>
    left
    exact CancelBooking_unchanged j slotID userID

/-! ## Invariants of the steps -/

theorem lookup_insert_cases {slots : Table} {id k : String} {slot a : Slot}
    (h : (slots.insert id slot).lookup k = some a) :
    (k = id ∧ a = slot) ∨ (k ≠ id ∧ slots.lookup k = some a) := by
  by_cases hk : k = id
  · subst hk
    rw [AList.lookup_insert] at h
    exact Or.inl ⟨rfl, (Option.some.inj h).symm⟩
  · rw [AList.lookup_insert_ne hk] at h
    exact Or.inr ⟨hk, h⟩

theorem toDigitsCore_ne_nil (b f : Nat) :
    ∀ (n : Nat) (ds : List Char), ds ≠ [] → Nat.toDigitsCore b f n ds ≠ [] := by
  induction f with
  | zero => intro n ds h; simpa [Nat.toDigitsCore] using h
  | succ f ih =>
    intro n ds _
    simp only [Nat.toDigitsCore]
    split_ifs
    · simp
    · exact ih _ _ (by simp)

theorem repr_ne_empty (n : Nat) : Nat.repr n ≠ "" := by
  have h : Nat.toDigits 10 n ≠ [] := by
    simp only [Nat.toDigits, Nat.toDigitsCore]
    split_ifs
    · simp
    · exact toDigitsCore_ne_nil 10 n _ _ (by simp)
  intro hr
  apply h
  have := congrArg String.data hr
  simpa [Nat.repr, List.asString] using this

theorem Step_noOverlap {j j' : JsonStore} (h : Step j j')
    (inv : ∀ id₁ id₂ a b, id₁ ≠ id₂ → j.slots.lookup id₁ = some a →
      j.slots.lookup id₂ = some b → a.Status ≠ StatusCanceled → b.Status ≠ StatusCanceled →
      ¬ Overlap a b) :
    ∀ id₁ id₂ a b, id₁ ≠ id₂ → j'.slots.lookup id₁ = some a →
      j'.slots.lookup id₂ = some b → a.Status ≠ StatusCanceled → b.Status ≠ StatusCanceled →
      ¬ Overlap a b := by
  intro id₁ id₂ a b hne ha hb hac hbc hov
  rcases Step_effect h with rfl | ⟨id, slot, _, _, _, _, _, _, hclear, rfl⟩ |
      ⟨id, slot, now, _, _, rfl⟩ | ⟨id, slot, userID, now, hl, hf, _, rfl⟩
  · exact inv id₁ id₂ a b hne ha hb hac hbc hov
  · rcases lookup_insert_cases ha with ⟨h₁, rfl⟩ | ⟨h₁, ha'⟩ <;>
      rcases lookup_insert_cases hb with ⟨h₂, rfl⟩ | ⟨h₂, hb'⟩
    · exact hne (h₁.trans h₂.symm)
    · exact hclear ⟨id₂, b, hb', hbc, hov.1, hov.2⟩
    · exact hclear ⟨id₁, a, ha', hac, hov.2, hov.1⟩
    · exact inv id₁ id₂ a b hne ha' hb' hac hbc hov
  · rcases lookup_insert_cases ha with ⟨h₁, rfl⟩ | ⟨h₁, ha'⟩ <;>
      rcases lookup_insert_cases hb with ⟨h₂, rfl⟩ | ⟨h₂, hb'⟩
    · exact hne (h₁.trans h₂.symm)
    · exact hac rfl
    · exact hbc rfl
    · exact inv id₁ id₂ a b hne ha' hb' hac hbc hov
  · have hsc : slot.Status ≠ StatusCanceled := by
      rw [hf]
      exact status_free_ne_canceled
    rcases lookup_insert_cases ha with ⟨h₁, rfl⟩ | ⟨h₁, ha'⟩ <;>
      rcases lookup_insert_cases hb with ⟨h₂, rfl⟩ | ⟨h₂, hb'⟩
    · exact hne (h₁.trans h₂.symm)
    · subst h₁
      exact inv id₁ id₂ slot b hne hl hb' hsc hbc hov
    · subst h₂
      exact inv id₁ id₂ a slot hne ha' hl hac hsc hov
    · exact inv id₁ id₂ a b hne ha' hb' hac hbc hov

theorem Step_freeUnbooked {j j' : JsonStore} (h : Step j j')
    (inv : ∀ id slot, j.slots.lookup id = some slot → slot.Status = StatusFree →
      slot.BookedBy = 0) :
    ∀ id slot, j'.slots.lookup id = some slot → slot.Status = StatusFree →
      slot.BookedBy = 0 := by
  intro k a ha hfree
  rcases Step_effect h with rfl | ⟨id, slot, _, _, _, _, hz, _, _, rfl⟩ |
      ⟨id, slot, now, _, _, rfl⟩ | ⟨id, slot, userID, now, _, _, _, rfl⟩
  · exact inv k a ha hfree
  · rcases lookup_insert_cases ha with ⟨_, rfl⟩ | ⟨_, ha⟩
    · exact hz
    · exact inv k a ha hfree
  · rcases lookup_insert_cases ha with ⟨_, rfl⟩ | ⟨_, ha⟩
    · exact absurd hfree.symm status_free_ne_canceled
    · exact inv k a ha hfree
  · rcases lookup_insert_cases ha with ⟨_, rfl⟩ | ⟨_, ha⟩
    · exact absurd hfree.symm status_free_ne_busy
    · exact inv k a ha hfree

theorem Step_keyIsID {j j' : JsonStore} (h : Step j j')
    (inv : ∀ id slot, j.slots.lookup id = some slot → slot.ID = id ∧ id ≠ "") :
    ∀ id slot, j'.slots.lookup id = some slot → slot.ID = id ∧ id ≠ "" := by
  intro k a ha
  rcases Step_effect h with rfl | ⟨id, slot, _, hid, ⟨n, hn⟩, _, _, _, _, rfl⟩ |
      ⟨id, slot, now, hl, _, rfl⟩ | ⟨id, slot, userID, now, hl, _, _, rfl⟩
  · exact inv k a ha
  · rcases lookup_insert_cases ha with ⟨hk, rfl⟩ | ⟨_, ha⟩
    · subst hk
      exact ⟨hid, by rw [hn]; exact repr_ne_empty n⟩
    · exact inv k a ha
  · rcases lookup_insert_cases ha with ⟨hk, rfl⟩ | ⟨_, ha⟩
    · subst hk
      exact inv k slot hl
    · exact inv k a ha
  · rcases lookup_insert_cases ha with ⟨hk, rfl⟩ | ⟨_, ha⟩
    · subst hk
      exact inv k slot hl
    · exact inv k a ha

theorem Step_dataPath {j j' : JsonStore} (h : Step j j') : j'.dataPath = j.dataPath := by
  rcases Step_effect h with rfl | ⟨_, _, _, _, _, _, _, _, _, rfl⟩ |
      ⟨_, _, _, _, _, rfl⟩ | ⟨_, _, _, _, _, _, _, rfl⟩ <;> rfl

theorem Step_canceled {j j' : JsonStore} (h : Step j j') (id : String) (slot : Slot)
    (hl : j.slots.lookup id = some slot) (hs : slot.Status = StatusCanceled) :
    j'.slots.lookup id = some slot := by
  rcases Step_effect h with rfl | ⟨k, new, hfresh, _, _, _, _, _, _, rfl⟩ |
      ⟨k, old, now, hold, hst, rfl⟩ | ⟨k, old, userID, now, hold, hst, _, rfl⟩
  · exact hl
  · have hk : id ≠ k := by
      rintro rfl
      rw [hfresh] at hl
      cases hl
    show (j.slots.insert k new).lookup id = some slot
    rw [AList.lookup_insert_ne hk]
    exact hl
  · have hk : id ≠ k := by
      rintro rfl
      rw [hold] at hl
      cases hl
      rcases hst with hst | hst
      · exact status_busy_ne_canceled (hst.symm.trans hs)
      · exact status_free_ne_canceled (hst.symm.trans hs)
    show (j.slots.insert k _).lookup id = some slot
    rw [AList.lookup_insert_ne hk]
    exact hl
  · have hk : id ≠ k := by
      rintro rfl
      rw [hold] at hl
      cases hl
      exact status_free_ne_canceled (hst.symm.trans hs)
    show (j.slots.insert k _).lookup id = some slot
    rw [AList.lookup_insert_ne hk]
    exact hl

theorem Reachable_noOverlap {j : JsonStore} (h : Reachable j) :
    ∀ id₁ id₂ a b, id₁ ≠ id₂ → j.slots.lookup id₁ = some a →
      j.slots.lookup id₂ = some b → a.Status ≠ StatusCanceled → b.Status ≠ StatusCanceled →
      ¬ Overlap a b := by
  induction h with
  | refl => intro id₁ _ a _ _ hl; simp [NewStore, AList.lookup_empty] at hl
  | tail _ hstep ih => exact Step_noOverlap hstep ih

theorem Steps_canceled {j j' : JsonStore} (h : Steps j j') (id : String) (slot : Slot)
    (hl : j.slots.lookup id = some slot) (hs : slot.Status = StatusCanceled) :
    j'.slots.lookup id = some slot := by
  induction h with
  | refl => exact hl
  | tail _ hstep ih => exact Step_canceled hstep id slot ih hs

theorem Reachable_freeUnbooked {j : JsonStore} (h : Reachable j) :
    ∀ id slot, j.slots.lookup id = some slot → slot.Status = StatusFree →
      slot.BookedBy = 0 := by
  induction h with
  | refl => intro id slot hl; simp [NewStore, AList.lookup_empty] at hl
  | tail _ hstep ih => exact Step_freeUnbooked hstep ih

theorem Reachable_keyIsID {j : JsonStore} (h : Reachable j) :
    ∀ id slot, j.slots.lookup id = some slot → slot.ID = id ∧ id ≠ "" := by
  induction h with
  | refl => intro id slot hl; simp [NewStore, AList.lookup_empty] at hl
  | tail _ hstep ih => exact Step_keyIsID hstep ih

theorem Reachable_dataPath {j : JsonStore} (h : Reachable j) : j.dataPath = "" := by
  induction h with
  | refl => rfl
  | tail _ hstep ih => rw [Step_dataPath hstep, ih]

/-! ## Reachable sample stores -/

theorem storeA_reachable : Reachable storeA :=
  Relation.ReflTransGen.single
    (Step.createSlot NewStore 10 20 sampleRand 1 1 1 (.ok slotA) storeA rfl)

theorem storeAB_reachable : Reachable storeAB :=
  Relation.ReflTransGen.tail storeA_reachable
    (Step.createSlot storeA 20 30 sampleRand 2 2 2 (.ok slotB) storeAB rfl)

theorem storeABooked_reachable : Reachable storeABooked :=
  Relation.ReflTransGen.tail storeA_reachable (Step.bookSlot storeA "7" 99 3)

theorem CancelBooking_canceled (j : JsonStore) (slotID : String) (userID : Int) (slot : Slot)
    (h : j.slots.lookup slotID = some slot) (hs : slot.Status = StatusCanceled) :
    CancelBooking j slotID userID = (.error errCanceled, j) := by
  simp [CancelBooking, h, hs, status_busy_ne_canceled.symm]

/-! ## Overlap, booking, cancellation -/

/-- C2: in every store reachable from the store of `NewStore` by calls of
`CreateSlot`, `CancelSlot`, `BookSlot` and `CancelBooking`, two slots stored
under distinct ids, neither of them canceled, have non-overlapping half-open
intervals: not (`a.StartAt < b.EndAt` and `b.StartAt < a.EndAt`). -/
theorem reachable_no_overlap (j : JsonStore) (hreach : Reachable j) (id₁ id₂ : String)
    (a b : Slot) (hne : id₁ ≠ id₂) (ha : j.slots.lookup id₁ = some a)
    (hb : j.slots.lookup id₂ = some b) (hac : a.Status ≠ StatusCanceled)
    (hbc : b.Status ≠ StatusCanceled) :
    ¬ (a.StartAt < b.EndAt ∧ b.StartAt < a.EndAt) :=
  Reachable_noOverlap hreach id₁ id₂ a b hne ha hb hac hbc

/-- Witness of C2: the two free slots `[10, 20)` and `[20, 30)` of a store two
creations away from the empty one. -/
theorem reachable_no_overlap_witness :
    ¬ (slotA.StartAt < slotB.EndAt ∧ slotB.StartAt < slotA.EndAt) :=
  reachable_no_overlap storeAB storeAB_reachable "7" "42" slotA slotB (by decide) rfl rfl
    (by decide) (by decide)

/-- C5: in every reachable store, `BookSlot(id, u)` on the id of a free slot
returns without an error; the returned slot is busy and booked by `u` and is
the slot stored under the id afterwards; and a second `BookSlot(id, v)`, for
every user `v`, returns the already-booked error and leaves the store as it
was, the slot still busy and booked by `u`. -/
theorem BookSlot_free_then_busy (j : JsonStore) (hreach : Reachable j) (slotID : String)
    (slot : Slot) (u now : Int) (hl : j.slots.lookup slotID = some slot)
    (hs : slot.Status = StatusFree) :
    ∃ booked j', BookSlot j slotID u now = (.ok booked, j') ∧
      booked.Status = StatusBusy ∧ booked.BookedBy = u ∧
      j'.slots.lookup slotID = some booked ∧
      ∀ v now', BookSlot j' slotID v now' = (.error errAlreadyBooked, j') ∧
        (BookSlot j' slotID v now').2.slots.lookup slotID = some booked := by
  have hz := Reachable_freeUnbooked hreach slotID slot hl hs
  refine ⟨_, _, BookSlot_free j slotID u now slot hl hs hz, rfl, rfl, ?_, ?_⟩
  · exact AList.lookup_insert _
  · intro v now'
    have hl' : (j.slots.insert slotID
        { slot with Status := StatusBusy, BookedBy := u, UpdatedAt := now }).lookup slotID =
        some { slot with Status := StatusBusy, BookedBy := u, UpdatedAt := now } :=
      AList.lookup_insert _
    have hbusy := BookSlot_busy
      { j with slots := (j.slots.insert slotID
          { slot with Status := StatusBusy, BookedBy := u, UpdatedAt := now }) }
      slotID v now' _ hl' rfl
    exact ⟨hbusy, by rw [hbusy]; exact hl'⟩

/-- Witness of C5: user `99` books the free slot `"7"` of `storeA`. -/
theorem BookSlot_free_then_busy_witness :
    ∃ booked j', BookSlot storeA "7" 99 3 = (.ok booked, j') ∧
      booked.Status = StatusBusy ∧ booked.BookedBy = 99 ∧
      j'.slots.lookup "7" = some booked ∧
      ∀ v now', BookSlot j' "7" v now' = (.error errAlreadyBooked, j') ∧
        (BookSlot j' "7" v now').2.slots.lookup "7" = some booked :=
  BookSlot_free_then_busy storeA storeA_reachable "7" slotA 99 3 rfl rfl

/-- C6: for every store, `CancelSlot(id)` returns the not-found error when the
id is absent; when the slot is free or busy it returns without an error, the
returned slot is canceled and is the slot stored under the id afterwards; and
a second `CancelSlot(id)` right after returns the already-canceled error and
leaves the store exactly as the first call left it. -/
theorem CancelSlot_then_already_canceled (j : JsonStore) (slotID : String) (now : Int) :
    (j.slots.lookup slotID = none →
      CancelSlot j slotID now = (.error errSlotDoesNotExist, j)) ∧
    (∀ slot, j.slots.lookup slotID = some slot →
      slot.Status = StatusFree ∨ slot.Status = StatusBusy →
      ∃ canceled j', CancelSlot j slotID now = (.ok canceled, j') ∧
        canceled.Status = StatusCanceled ∧ j'.slots.lookup slotID = some canceled ∧
        ∀ now', CancelSlot j' slotID now' = (.error errAlreadyCanceled, j')) := by
  refine ⟨CancelSlot_absent j slotID now, ?_⟩
  intro slot hl hs
  refine ⟨_, _, CancelSlot_live j slotID now slot hl hs.symm, rfl, AList.lookup_insert _, ?_⟩
  intro now'
  exact CancelSlot_canceled _ slotID now' _ (AList.lookup_insert _) rfl

/-- Witness of C6: the absent id `"8"` and the busy slot `"7"` of `storeABooked`. -/
theorem CancelSlot_then_already_canceled_witness :
    CancelSlot storeABooked "8" 4 = (.error errSlotDoesNotExist, storeABooked) ∧
    ∃ canceled j', CancelSlot storeABooked "7" 4 = (.ok canceled, j') ∧
      canceled.Status = StatusCanceled ∧ j'.slots.lookup "7" = some canceled ∧
      ∀ now', CancelSlot j' "7" now' = (.error errAlreadyCanceled, j') :=
  ⟨(CancelSlot_then_already_canceled storeABooked "8" 4).1 rfl,
   (CancelSlot_then_already_canceled storeABooked "7" 4).2 slotABooked rfl (Or.inr rfl)⟩

/-- C7: once the slot stored under an id is canceled, after any further
sequence of calls of `CreateSlot`, `CancelSlot`, `BookSlot` and
`CancelBooking` the slot stored under that id is the same slot, field for
field, and every `BookSlot`, `CancelSlot` and `CancelBooking` on that id
returns an error and leaves the store as it was. -/
theorem canceled_is_terminal (j j' : JsonStore) (hsteps : Steps j j') (slotID : String)
    (slot : Slot) (hl : j.slots.lookup slotID = some slot)
    (hs : slot.Status = StatusCanceled) :
    j'.slots.lookup slotID = some slot ∧
    (∀ u now, BookSlot j' slotID u now = (.error errCanceled, j')) ∧
    (∀ now, CancelSlot j' slotID now = (.error errAlreadyCanceled, j')) ∧
    (∀ u, CancelBooking j' slotID u = (.error errCanceled, j')) := by
  have hl' : j'.slots.lookup slotID = some slot := Steps_canceled hsteps slotID slot hl hs
  exact ⟨hl', fun u now => BookSlot_canceled j' slotID u now slot hl' hs,
    fun now => CancelSlot_canceled j' slotID now slot hl' hs,
    fun u => CancelBooking_canceled j' slotID u slot hl' hs⟩

/-- Witness of C7: the canceled slot `"3"` of the sample store, across a
creation that takes over its interval. -/
theorem canceled_is_terminal_witness :
    sampleStoreNext.slots.lookup "3" =
      some { ID := "3", StartAt := 20, EndAt := 30, Status := StatusCanceled, BookedBy := 0,
             CreatedAt := 2, UpdatedAt := 3 } ∧
    (∀ u now, BookSlot sampleStoreNext "3" u now = (.error errCanceled, sampleStoreNext)) ∧
    (∀ now, CancelSlot sampleStoreNext "3" now = (.error errAlreadyCanceled, sampleStoreNext)) ∧
    (∀ u, CancelBooking sampleStoreNext "3" u = (.error errCanceled, sampleStoreNext)) :=
  canceled_is_terminal sampleStore sampleStoreNext
    (Relation.ReflTransGen.single
      (Step.createSlot sampleStore 20 30 sampleRand 5 6 2 _ sampleStoreNext rfl))
    "3" _ rfl rfl

/-! ## Releasing a booking, listing by user -/

/-- C8, the code at the failing input: in the reachable store whose slot `"7"`
is busy and booked by user `99`, `CancelBooking("7", 99)` by that very user
returns the already-booked error and leaves the store as it was, the slot
still busy and booked by `99`, where the specification has the call succeed
and the slot become free with `bookedBy` 0. -/
theorem CancelBooking_by_owner_fails :
    Reachable storeABooked ∧
    storeABooked.slots.lookup "7" = some slotABooked ∧
    slotABooked.Status = StatusBusy ∧ slotABooked.BookedBy = 99 ∧
    CancelBooking storeABooked "7" 99 = (.error errAlreadyBooked, storeABooked) :=
  ⟨storeABooked_reachable, rfl, rfl, rfl, rfl⟩

/-- C9, the code at the failing input: in the reachable store whose only slot
is booked by user `99`, `ListSlots` returns that slot and
`ListSlotsByUser(99)` returns no slot, where the specification has it return
the slots of `ListSlots` booked by `99`. -/
theorem ListSlotsByUser_misses_booking :
    Reachable storeABooked ∧
    ListSlots storeABooked = [slotABooked] ∧ slotABooked.BookedBy = 99 ∧
    ListSlotsByUser storeABooked 99 = [] :=
  ⟨storeABooked_reachable, rfl, rfl, rfl⟩

/-! ## Save and Load -/

theorem foldl_append_values (l : List (Sigma fun _ : String => Slot)) :
    ∀ init : List Slot,
      l.foldl (fun allSlots item => allSlots ++ [item.2]) init = init ++ l.map Sigma.snd := by
  induction l with
  | nil => intro init; simp
  | cons x rest ih => intro init; simp [ih]

theorem loadLoop_ok (l : List Slot) :
    ∀ slots : Table, (∀ s ∈ l, s.ID ≠ "") →
      loadLoop slots l = (none, l.foldl (fun (t : Table) (s : Slot) => t.insert s.ID s) slots) := by
  induction l with
  | nil => intro slots _; rfl
  | cons x rest ih =>
    intro slots h
    have hx : x.ID ≠ "" := h x (List.mem_cons_self _ _)
    simp only [loadLoop, hx, if_false, List.foldl_cons]
    exact ih _ fun s hs => h s (List.mem_cons_of_mem _ hs)

theorem lookup_foldl_insert (l : List (Sigma fun _ : String => Slot)) :
    ∀ slots : Table, l.NodupKeys → (∀ x ∈ l, x.2.ID = x.1) → ∀ k,
      ((l.map Sigma.snd).foldl (fun (t : Table) (s : Slot) => t.insert s.ID s) slots).lookup k =
        (l.dlookup k).orElse fun _ => slots.lookup k := by
  induction l with
  | nil => intro slots _ _ k; simp
  | cons x rest ih =>
    intro slots hnd hid k
    obtain ⟨hx, hrest⟩ := List.nodupKeys_cons.mp hnd
    have hxid : x.2.ID = x.1 := hid x (List.mem_cons_self _ _)
    simp only [List.map_cons, List.foldl_cons]
    rw [ih _ hrest (fun y hy => hid y (List.mem_cons_of_mem _ hy)) k, hxid]
    by_cases hk : k = x.1
    · subst hk
      have hnone : rest.dlookup x.1 = none := List.dlookup_eq_none.mpr hx
      rw [hnone, AList.lookup_insert]
      obtain ⟨a, b⟩ := x
      simp [List.dlookup_cons_eq]
    · rw [AList.lookup_insert_ne hk]
      obtain ⟨a, b⟩ := x
      rw [List.dlookup_cons_ne _ _ (fun h => hk h)]

theorem Load_after_Save (order : Table) (hid : ∀ id slot, order.lookup id = some slot →
      slot.ID = id ∧ id ≠ "")
    (path : String) (hpath : path ≠ "") (disk : Disk) (env : SaveEnv)
    (hm : env.marshalFails = false) (hw : env.failedWrite = none) :
    (Save { slots := order, dataPath := path } disk env).1 = none ∧
    (Load { slots := ∅, dataPath := path }
      (Save { slots := order, dataPath := path } disk env).2).1 = none ∧
    ∀ id, (Load { slots := ∅, dataPath := path }
      (Save { slots := order, dataPath := path } disk env).2).2.slots.lookup id =
        order.lookup id := by
  have hent : ∀ x ∈ order.entries, x.2.ID = x.1 ∧ x.1 ≠ "" := by
    rintro ⟨id, slot⟩ hx
    exact hid id slot (Option.mem_def.mp (AList.mem_lookup_iff.mpr hx))
  have hsave : Save { slots := order, dataPath := path } disk env =
      (none, Function.update disk path (File.records (order.entries.map Sigma.snd))) := by
    simp [Save, hpath, hm, hw, foldl_append_values]
  have hids : ∀ s ∈ order.entries.map Sigma.snd, s.ID ≠ "" := by
    intro s hs
    obtain ⟨x, hx, rfl⟩ := List.mem_map.mp hs
    rw [(hent x hx).1]
    exact (hent x hx).2
  have hload : Load { slots := ∅, dataPath := path }
      (Function.update disk path (File.records (order.entries.map Sigma.snd))) =
      (none, { slots := (order.entries.map Sigma.snd).foldl (fun (t : Table) (s : Slot) => t.insert s.ID s) ∅,
               dataPath := path }) := by
    simp [Load, hpath, loadLoop_ok _ _ hids]
  rw [hsave, hload]
  refine ⟨rfl, rfl, fun id => ?_⟩
  show ((order.entries.map Sigma.snd).foldl (fun (t : Table) (s : Slot) => t.insert s.ID s) ∅).lookup id = _
  rw [lookup_foldl_insert order.entries ∅ order.nodupKeys (fun x hx => (hent x hx).1) id]
  simp only [AList.lookup_empty]
  show (order.lookup id).orElse (fun _ => none) = order.lookup id
  cases order.lookup id <;> rfl

/-- C10, the code at the failing input: the store `storeA`, one `CreateSlot`
away from the store of `NewStore`, holds the slot `"7"`; its `Save` returns no
error and writes nothing, and `Load` into a fresh store of `NewStore` on the
file system that `Save` leaves returns no error and leaves the fresh table
without the slot `"7"`, where the specification has `Save` followed by `Load`
into a fresh empty table yield the same slots. -/
theorem Save_then_Load_without_path_loses_slots :
    Reachable storeA ∧ storeA.slots.lookup "7" = some slotA ∧
    Save storeA emptyDisk noFailure = (none, emptyDisk) ∧
    (Load NewStore (Save storeA emptyDisk noFailure).2).1 = none ∧
    (Load NewStore (Save storeA emptyDisk noFailure).2).2.slots.lookup "7" = none :=
  ⟨storeA_reachable, rfl, rfl, rfl, rfl⟩

/-- The two methods on a store that has a persistence path, which no store of
`NewStore` has: for every table reachable through the repository
operations, in whatever order `order` a traversal visits its entries, and
every non-empty persistence path, a `Save` whose library calls do not fail
returns no error, and `Load` into a fresh empty table with the same path, on
the file system that `Save` leaves, returns no error and yields a table that
stores under every id exactly the slot the saved table stores under it: the
record sequence `Save` emits, re-keyed by id, reproduces the table. -/
theorem Save_then_Load_roundtrip (j : JsonStore) (hreach : Reachable j) (order : Table)
    (horder : order.entries.Perm j.slots.entries) (path : String) (hpath : path ≠ "")
    (disk : Disk) (env : SaveEnv) (hm : env.marshalFails = false)
    (hw : env.failedWrite = none) :
    (Save { slots := order, dataPath := path } disk env).1 = none ∧
    (Load { slots := ∅, dataPath := path }
      (Save { slots := order, dataPath := path } disk env).2).1 = none ∧
    ∀ id, (Load { slots := ∅, dataPath := path }
      (Save { slots := order, dataPath := path } disk env).2).2.slots.lookup id =
        j.slots.lookup id := by
  have hlook : ∀ id, order.lookup id = j.slots.lookup id := fun id => AList.perm_lookup horder
  have hid : ∀ id slot, order.lookup id = some slot → slot.ID = id ∧ id ≠ "" := by
    intro id slot h
    rw [hlook id] at h
    exact Reachable_keyIsID hreach id slot h
  obtain ⟨h₁, h₂, h₃⟩ := Load_after_Save order hid path hpath disk env hm hw
  exact ⟨h₁, h₂, fun id => (h₃ id).trans (hlook id)⟩

/-- An instance of the round trip with a path: the two slots of `storeAB`,
saved to `"slots.json"` by a traversal that visits `"7"` first. -/
theorem Save_then_Load_roundtrip_witness :
    (Save { slots := tableBA, dataPath := "slots.json" } emptyDisk noFailure).1 = none ∧
    (Load { slots := ∅, dataPath := "slots.json" }
      (Save { slots := tableBA, dataPath := "slots.json" } emptyDisk noFailure).2).1 = none ∧
    ∀ id, (Load { slots := ∅, dataPath := "slots.json" }
      (Save { slots := tableBA, dataPath := "slots.json" } emptyDisk noFailure).2).2.slots.lookup
        id = storeAB.slots.lookup id :=
  Save_then_Load_roundtrip storeAB storeAB_reachable tableBA (by decide) "slots.json"
    (by decide) emptyDisk noFailure rfl rfl

/-! ## Failure of Load, failures of BookSlot, the booking user -/

theorem storeACanceled_reachable : Reachable storeACanceled :=
  Relation.ReflTransGen.tail storeABooked_reachable (Step.cancelSlot storeABooked "7" 4)

/-- C11, the code at the failing input: on a fresh empty table with the path
`"slots.json"`, whose file decodes to the record `slotA` followed by a record
without an id, `Load` returns the empty-id error and the table after the call
holds `slotA` under `"7"`, where the specification has the table after a
failed `Load` identical to the table before it. -/
theorem Load_empty_id_keeps_earlier_records :
    freshStoreAt.slots.lookup "7" = none ∧
    (Load freshStoreAt corruptDisk).1 = some errEmptyID ∧
    (Load freshStoreAt corruptDisk).2.slots.lookup "7" = some slotA :=
  ⟨rfl, rfl, rfl⟩

/-- C12: for every store, `BookSlot(id, u)` returns the not-found error when
the id is absent, the already-booked error when the slot is busy, the canceled
error when the slot is canceled, and the invalid-state error when the slot is
free and carries a nonzero `BookedBy`; the four messages are pairwise
different; and whenever `BookSlot` returns an error the store after the call
is the store before it. -/
theorem BookSlot_failures (j : JsonStore) (slotID : String) (userID now : Int) :
    (j.slots.lookup slotID = none →
      BookSlot j slotID userID now = (.error errNotFound, j)) ∧
    (∀ slot, j.slots.lookup slotID = some slot → slot.Status = StatusBusy →
      BookSlot j slotID userID now = (.error errAlreadyBooked, j)) ∧
    (∀ slot, j.slots.lookup slotID = some slot → slot.Status = StatusCanceled →
      BookSlot j slotID userID now = (.error errCanceled, j)) ∧
    (∀ slot, j.slots.lookup slotID = some slot → slot.Status = StatusFree →
      slot.BookedBy ≠ 0 → BookSlot j slotID userID now = (.error errInvalidState, j)) ∧
    (errNotFound ≠ errAlreadyBooked ∧ errNotFound ≠ errCanceled ∧
      errNotFound ≠ errInvalidState ∧ errAlreadyBooked ≠ errCanceled ∧
      errAlreadyBooked ≠ errInvalidState ∧ errCanceled ≠ errInvalidState) ∧
    (∀ msg j', BookSlot j slotID userID now = (.error msg, j') → j' = j) := by
  refine ⟨BookSlot_absent j slotID userID now,
    fun slot hl hs => BookSlot_busy j slotID userID now slot hl hs,
    fun slot hl hs => BookSlot_canceled j slotID userID now slot hl hs,
    fun slot hl hs hz => BookSlot_free_stale j slotID userID now slot hl hs hz,
    by decide, ?_⟩
  intro msg j' h
  cases hl : j.slots.lookup slotID with
  | none =>
    rw [BookSlot_absent j slotID userID now hl] at h
    exact (congrArg Prod.snd h).symm
  | some slot =>
    by_cases hb : slot.Status = StatusBusy
    · rw [BookSlot_busy j slotID userID now slot hl hb] at h
      exact (congrArg Prod.snd h).symm
    · by_cases hc : slot.Status = StatusCanceled
      · rw [BookSlot_canceled j slotID userID now slot hl hc] at h
        exact (congrArg Prod.snd h).symm
      · by_cases hf : slot.Status = StatusFree
        · by_cases hz : slot.BookedBy = 0
          · rw [BookSlot_free j slotID userID now slot hl hf hz] at h
            have h₁ := congrArg Prod.fst h
            cases h₁
          · rw [BookSlot_free_stale j slotID userID now slot hl hf hz] at h
            exact (congrArg Prod.snd h).symm
        · rw [BookSlot_other j slotID userID now slot hl hb hc hf] at h
          exact (congrArg Prod.snd h).symm

/-- Witness of C12: the four failures, on an absent id, on the busy slot of
`storeABooked`, on the canceled slot of `storeACanceled` and on the free slot
of `storeStale`, which carries the user `99`. -/
theorem BookSlot_failures_witness :
    BookSlot storeA "8" 5 9 = (.error errNotFound, storeA) ∧
    BookSlot storeABooked "7" 5 9 = (.error errAlreadyBooked, storeABooked) ∧
    BookSlot storeACanceled "7" 5 9 = (.error errCanceled, storeACanceled) ∧
    BookSlot storeStale "7" 5 9 = (.error errInvalidState, storeStale) :=
  ⟨(BookSlot_failures storeA "8" 5 9).1 rfl,
   (BookSlot_failures storeABooked "7" 5 9).2.1 slotABooked rfl rfl,
   (BookSlot_failures storeACanceled "7" 5 9).2.2.1 slotACanceled rfl rfl,
   (BookSlot_failures storeStale "7" 5 9).2.2.2.1 { slotA with BookedBy := 99 } rfl rfl
     (by decide)⟩

/-- C13, counterexample: the store reached by `CreateSlot(10, 20)`,
`BookSlot("7", 99)` and `CancelSlot("7")` holds under `"7"` a canceled slot
whose `BookedBy` is `99`. -/
theorem canceled_slot_keeps_user :
    Reachable storeACanceled ∧
    ∃ slot, storeACanceled.slots.lookup "7" = some slot ∧
      slot.Status = StatusCanceled ∧ slot.BookedBy = 99 ∧ slot.BookedBy ≠ 0 :=
  ⟨storeACanceled_reachable, slotACanceled, rfl, rfl, rfl, by decide⟩

/-- C13, amended: in every store reachable from the store of `NewStore` by
calls of `CreateSlot`, `CancelSlot`, `BookSlot` and `CancelBooking`, every
slot whose status is free has `BookedBy` 0. -/
theorem reachable_free_unbooked (j : JsonStore) (hreach : Reachable j) (id : String)
    (slot : Slot) (hl : j.slots.lookup id = some slot) (hs : slot.Status = StatusFree) :
    slot.BookedBy = 0 :=
  Reachable_freeUnbooked hreach id slot hl hs

/-- Witness of C13, amended: the free slot `"42"` of `storeAB`. -/
theorem reachable_free_unbooked_witness : slotB.BookedBy = 0 :=
  reachable_free_unbooked storeAB storeAB_reachable "42" slotB rfl rfl

/-! ## Fresh identifiers and the id loop -/

theorem CreateSlot_ok_inv {j j' : JsonStore} {startAt endAt : Int} {rand : Nat → Nat}
    {now₁ now₂ : Int} {fuel : Nat} {slot : Slot}
    (h : CreateSlot j startAt endAt rand now₁ now₂ fuel = some (.ok slot, j')) :
    startAt < endAt ∧ ¬ Blocked j startAt endAt ∧ idLoop j.slots rand fuel = some slot.ID ∧
      slot = { ID := slot.ID, StartAt := startAt, EndAt := endAt, Status := StatusFree,
               BookedBy := 0, CreatedAt := now₁, UpdatedAt := now₂ } ∧
      j' = { j with slots := j.slots.insert slot.ID slot } := by
  by_cases hr : startAt < endAt
  · by_cases hb : Blocked j startAt endAt
    · rw [CreateSlot_blocked j startAt endAt rand now₁ now₂ fuel hr hb] at h
      simp at h
    · rw [CreateSlot_clear j startAt endAt rand now₁ now₂ fuel hr hb] at h
      cases hid : idLoop j.slots rand fuel with
      | none => simp [hid] at h
      | some id =>
        rw [hid] at h
        simp only [Option.map_some', Option.some.injEq, Prod.mk.injEq, Except.ok.injEq] at h
        obtain ⟨hs, hj⟩ := h
        subst hs
        exact ⟨hr, hb, rfl, rfl, hj.symm⟩
  · rw [CreateSlot_invalid j startAt endAt rand now₁ now₂ fuel (by omega)] at h
    simp at h

theorem Step_keeps_keys {j j' : JsonStore} (h : Step j j') (id : String)
    (hk : (j.slots.lookup id).isSome = true) : (j'.slots.lookup id).isSome = true := by
  have hins : ∀ (k : String) (s : Slot), ((j.slots.insert k s).lookup id).isSome = true := by
    intro k s
    by_cases hid : id = k
    · subst hid
      rw [AList.lookup_insert]
      rfl
    · rw [AList.lookup_insert_ne hid]
      exact hk
  rcases Step_effect h with rfl | ⟨k, s, _, _, _, _, _, _, _, rfl⟩ |
      ⟨k, s, now, _, _, rfl⟩ | ⟨k, s, userID, now, _, _, _, rfl⟩
  · exact hk
  · exact hins k s
  · exact hins k _
  · exact hins k _

theorem Steps_keeps_keys {j j' : JsonStore} (h : Steps j j') (id : String)
    (hk : (j.slots.lookup id).isSome = true) : (j'.slots.lookup id).isSome = true := by
  induction h with
  | refl => exact hk
  | tail _ hstep ih => exact Step_keeps_keys hstep id ih

theorem idLoop_none (slots : Table) (fuel : Nat) :
    ∀ rand : Nat → Nat, (∀ i, i < fuel → (slots.lookup (Nat.repr (rand i))).isSome = true) →
      idLoop slots rand fuel = none := by
  induction fuel with
  | zero => intro rand _; rfl
  | succ n ih =>
    intro rand h
    simp only [idLoop]
    rw [if_pos (h 0 (by omega))]
    exact ih _ fun i hi => h (i + 1) (by omega)

theorem idLoop_exact (slots : Table) (fuel : Nat) :
    ∀ (rand : Nat → Nat) (k : Nat),
      (∀ i, i < k → (slots.lookup (Nat.repr (rand i))).isSome = true) →
      slots.lookup (Nat.repr (rand k)) = none → k < fuel →
      idLoop slots rand fuel = some (Nat.repr (rand k)) := by
  induction fuel with
  | zero => intro rand k _ _ hk; omega
  | succ n ih =>
    intro rand k hbefore hfresh hk
    simp only [idLoop]
    cases k with
    | zero => simp [hfresh]
    | succ k =>
      rw [if_pos (hbefore 0 (by omega))]
      exact ih (fun i => rand (i + 1)) k (fun i hi => hbefore (i + 1) (by omega)) hfresh
        (by omega)

/-- C14: for every store and every call of `CreateSlot` that returns a slot,
the returned id is no key of the table before the call; after the call the
table stores the returned slot under that id, stores every slot it stored
before under the same id and unchanged, and has exactly one more entry; and
after any further sequence of calls no `CreateSlot` returns that id again. -/
theorem CreateSlot_fresh_id (j j' : JsonStore) (startAt endAt : Int) (rand : Nat → Nat)
    (now₁ now₂ : Int) (fuel : Nat) (slot : Slot)
    (h : CreateSlot j startAt endAt rand now₁ now₂ fuel = some (.ok slot, j')) :
    j.slots.lookup slot.ID = none ∧
    j'.slots.lookup slot.ID = some slot ∧
    (∀ id old, j.slots.lookup id = some old → j'.slots.lookup id = some old) ∧
    j'.slots.entries.length = j.slots.entries.length + 1 ∧
    (∀ j'' startAt₂ endAt₂ rand₂ now₃ now₄ fuel₂ slot₂ j₃, Steps j' j'' →
      CreateSlot j'' startAt₂ endAt₂ rand₂ now₃ now₄ fuel₂ = some (.ok slot₂, j₃) →
      slot₂.ID ≠ slot.ID) := by
  obtain ⟨_, _, hid, _, rfl⟩ := CreateSlot_ok_inv h
  have hfresh : j.slots.lookup slot.ID = none := idLoop_fresh j.slots fuel rand slot.ID hid
  have hstored : (j.slots.insert slot.ID slot).lookup slot.ID = some slot :=
    AList.lookup_insert _
  refine ⟨hfresh, hstored, ?_, ?_, ?_⟩
  · intro id old hold
    have hne : id ≠ slot.ID := by
      rintro rfl
      rw [hfresh] at hold
      cases hold
    show (j.slots.insert slot.ID slot).lookup id = some old
    rw [AList.lookup_insert_ne hne]
    exact hold
  · show (j.slots.insert slot.ID slot).entries.length = _
    rw [AList.insert_entries_of_neg (AList.lookup_eq_none.mp hfresh)]
    rfl
  · intro j'' startAt₂ endAt₂ rand₂ now₃ now₄ fuel₂ slot₂ j₃ hsteps h₂ heq
    obtain ⟨_, _, hid₂, _, _⟩ := CreateSlot_ok_inv h₂
    have hfresh₂ := idLoop_fresh j''.slots fuel₂ rand₂ slot₂.ID hid₂
    have hkey := Steps_keeps_keys hsteps slot.ID (by
      show ((j.slots.insert slot.ID slot).lookup slot.ID).isSome = true
      rw [hstored]
      rfl)
    rw [← heq, hfresh₂] at hkey
    cases hkey

/-- Witness of C14: the creation of `slotB` on `storeA`, whose first draw
collides with the key `"7"`. -/
theorem CreateSlot_fresh_id_witness :
    storeA.slots.lookup slotB.ID = none ∧
    storeAB.slots.lookup slotB.ID = some slotB ∧
    (∀ id old, storeA.slots.lookup id = some old → storeAB.slots.lookup id = some old) ∧
    storeAB.slots.entries.length = storeA.slots.entries.length + 1 ∧
    (∀ j'' startAt₂ endAt₂ rand₂ now₃ now₄ fuel₂ slot₂ j₃, Steps storeAB j'' →
      CreateSlot j'' startAt₂ endAt₂ rand₂ now₃ now₄ fuel₂ = some (.ok slot₂, j₃) →
      slot₂.ID ≠ slotB.ID) :=
  CreateSlot_fresh_id storeA storeAB 20 30 sampleRand 2 2 2 slotB rfl

/-- C15, counterexample: on the table of `storeA`, whose only key is `"7"`,
the interval `[20, 30)` is valid and overlaps no slot, and with a random
source that returns `7` at every draw no number of draws lets `CreateSlot`
return. -/
theorem CreateSlot_stuck :
    (20 : Int) < 30 ∧ ¬ Blocked storeA 20 30 ∧
    ¬ ∃ fuel, (CreateSlot storeA 20 30 stuckRand 2 2 fuel).isSome = true := by
  have hb : ¬ Blocked storeA 20 30 := by
    rw [← conflictLoop_iff_blocked]
    decide
  refine ⟨by decide, hb, ?_⟩
  rintro ⟨fuel, h⟩
  rw [CreateSlot_clear storeA 20 30 stuckRand 2 2 fuel (by decide) hb,
    idLoop_none storeA.slots fuel stuckRand
      (fun _ _ => (by decide : (storeA.slots.lookup (Nat.repr 7)).isSome = true))] at h
  cases h

/-- C15, amended: the id loop of `CreateSlot` ends at the first draw that is
no key of the table.  For every table, every valid interval that overlaps no
slot other than canceled ones and every sequence of draws whose draws before
the `k`-th are keys of the table and whose `k`-th is not, `CreateSlot` has not
returned after `k` draws or fewer and returns, with the `k`-th draw as id, as
soon as it is followed for more than `k` draws. -/
theorem CreateSlot_returns_at_first_unused_draw (j : JsonStore) (startAt endAt : Int)
    (rand : Nat → Nat) (now₁ now₂ : Int) (k : Nat) (hrange : startAt < endAt)
    (hclear : ∀ id existing, j.slots.lookup id = some existing →
      existing.Status ≠ StatusCanceled →
      ¬ (startAt < existing.EndAt ∧ endAt > existing.StartAt))
    (hbefore : ∀ i, i < k → (j.slots.lookup (Nat.repr (rand i))).isSome = true)
    (hdraw : j.slots.lookup (Nat.repr (rand k)) = none) :
    (∀ fuel, fuel ≤ k → CreateSlot j startAt endAt rand now₁ now₂ fuel = none) ∧
    (∀ fuel, k < fuel → ∃ slot j',
      CreateSlot j startAt endAt rand now₁ now₂ fuel = some (.ok slot, j') ∧
      slot.ID = Nat.repr (rand k)) := by
  have hb : ¬ Blocked j startAt endAt := by
    rintro ⟨id, existing, hlook, hst, h₁, h₂⟩
    exact hclear id existing hlook hst ⟨h₁, h₂⟩
  constructor
  · intro fuel hfuel
    rw [CreateSlot_clear j startAt endAt rand now₁ now₂ fuel hrange hb,
      idLoop_none j.slots fuel rand (fun i hi => hbefore i (by omega))]
    rfl
  · intro fuel hfuel
    rw [CreateSlot_clear j startAt endAt rand now₁ now₂ fuel hrange hb,
      idLoop_exact j.slots fuel rand k hbefore hdraw hfuel]
    exact ⟨_, _, rfl, rfl⟩

/-- Witness of C15, amended: on `storeA` the first draw, `7`, is a key and the
second, `42`, is not. -/
theorem CreateSlot_returns_at_first_unused_draw_witness :
    (∀ fuel, fuel ≤ 1 → CreateSlot storeA 20 30 sampleRand 2 2 fuel = none) ∧
    (∀ fuel, 1 < fuel → ∃ slot j',
      CreateSlot storeA 20 30 sampleRand 2 2 fuel = some (.ok slot, j') ∧
      slot.ID = Nat.repr (sampleRand 1)) :=
  CreateSlot_returns_at_first_unused_draw storeA 20 30 sampleRand 2 2 1 (by decide)
    (by
      intro id existing hlook _
      have hmem : (⟨id, existing⟩ : Sigma fun _ : String => Slot) ∈ storeA.slots.entries :=
        AList.mem_lookup_iff.mp (Option.mem_def.mpr hlook)
      have hent : storeA.slots.entries = [⟨"7", slotA⟩] := by decide
      rw [hent] at hmem
      simp only [List.mem_singleton] at hmem
      cases hmem
      decide)
    (by
      intro i hi
      have hi₀ : i = 0 := by omega
      subst hi₀
      decide)
    (by decide)

/-! ## What a successful call changes -/

theorem CreateSlot_error_unchanged {j j' : JsonStore} {startAt endAt : Int}
    {rand : Nat → Nat} {now₁ now₂ : Int} {fuel : Nat} {msg : String}
    (h : CreateSlot j startAt endAt rand now₁ now₂ fuel = some (.error msg, j')) : j' = j := by
  by_cases hr : startAt < endAt
  · by_cases hb : Blocked j startAt endAt
    · rw [CreateSlot_blocked j startAt endAt rand now₁ now₂ fuel hr hb] at h
      simp only [Option.some.injEq, Prod.mk.injEq] at h
      exact h.2.symm
    · rw [CreateSlot_clear j startAt endAt rand now₁ now₂ fuel hr hb] at h
      cases hid : idLoop j.slots rand fuel <;> simp [hid] at h
  · rw [CreateSlot_invalid j startAt endAt rand now₁ now₂ fuel (by omega)] at h
    simp only [Option.some.injEq, Prod.mk.injEq] at h
    exact h.2.symm

theorem CancelSlot_cases (j : JsonStore) (slotID : String) (now : Int) :
    (∃ msg, CancelSlot j slotID now = (.error msg, j)) ∨
    (∃ old, j.slots.lookup slotID = some old ∧
      (old.Status = StatusBusy ∨ old.Status = StatusFree) ∧
      CancelSlot j slotID now =
        (.ok { old with Status := StatusCanceled, UpdatedAt := now },
         { j with slots := (j.slots.insert slotID
            { old with Status := StatusCanceled, UpdatedAt := now }) })) := by
  cases hl : j.slots.lookup slotID with
  | none => exact Or.inl ⟨_, CancelSlot_absent j slotID now hl⟩
  | some slot =>
    by_cases hc : slot.Status = StatusCanceled
    · exact Or.inl ⟨_, CancelSlot_canceled j slotID now slot hl hc⟩
    · by_cases hs : slot.Status = StatusBusy ∨ slot.Status = StatusFree
      · exact Or.inr ⟨slot, rfl, hs, CancelSlot_live j slotID now slot hl hs⟩
      · exact Or.inl ⟨_, CancelSlot_other j slotID now slot hl hc hs⟩

theorem BookSlot_cases (j : JsonStore) (slotID : String) (userID now : Int) :
    (∃ msg, BookSlot j slotID userID now = (.error msg, j)) ∨
    (∃ old, j.slots.lookup slotID = some old ∧ old.Status = StatusFree ∧ old.BookedBy = 0 ∧
      BookSlot j slotID userID now =
        (.ok { old with Status := StatusBusy, BookedBy := userID, UpdatedAt := now },
         { j with slots := (j.slots.insert slotID
            { old with Status := StatusBusy, BookedBy := userID, UpdatedAt := now }) })) := by
  cases hl : j.slots.lookup slotID with
  | none => exact Or.inl ⟨_, BookSlot_absent j slotID userID now hl⟩
  | some slot =>
    by_cases hb : slot.Status = StatusBusy
    · exact Or.inl ⟨_, BookSlot_busy j slotID userID now slot hl hb⟩
    · by_cases hc : slot.Status = StatusCanceled
      · exact Or.inl ⟨_, BookSlot_canceled j slotID userID now slot hl hc⟩
      · by_cases hf : slot.Status = StatusFree
        · by_cases hz : slot.BookedBy = 0
          · exact Or.inr ⟨slot, rfl, hf, hz, BookSlot_free j slotID userID now slot hl hf hz⟩
          · exact Or.inl ⟨_, BookSlot_free_stale j slotID userID now slot hl hf hz⟩
        · exact Or.inl ⟨_, BookSlot_other j slotID userID now slot hl hb hc hf⟩

/-- C16: every call of `CancelSlot` or `BookSlot` on an id that returns a slot
found a slot `old` under that id, stores the returned slot under it, and
leaves every other entry of the table and the persistence path as they were.
The slot `CancelSlot` returns is `old` with `Status` canceled and `UpdatedAt`
the clock reading, so id, interval, creation time and `BookedBy` are those of
`old`; the slot `BookSlot` returns is `old` with `Status` busy, `BookedBy` the
user and `UpdatedAt` the clock reading, so id, interval and creation time are
those of `old`. -/
theorem CancelSlot_BookSlot_frame (j : JsonStore) (slotID : String) :
    (∀ now canceled j', CancelSlot j slotID now = (.ok canceled, j') →
      ∃ old, j.slots.lookup slotID = some old ∧ j'.slots.lookup slotID = some canceled ∧
        (∀ k, k ≠ slotID → j'.slots.lookup k = j.slots.lookup k) ∧
        j'.dataPath = j.dataPath ∧
        canceled = { old with Status := StatusCanceled, UpdatedAt := now } ∧
        canceled.ID = old.ID ∧ canceled.StartAt = old.StartAt ∧
        canceled.EndAt = old.EndAt ∧ canceled.CreatedAt = old.CreatedAt ∧
        canceled.BookedBy = old.BookedBy) ∧
    (∀ userID now booked j', BookSlot j slotID userID now = (.ok booked, j') →
      ∃ old, j.slots.lookup slotID = some old ∧ j'.slots.lookup slotID = some booked ∧
        (∀ k, k ≠ slotID → j'.slots.lookup k = j.slots.lookup k) ∧
        j'.dataPath = j.dataPath ∧
        booked = { old with Status := StatusBusy, BookedBy := userID, UpdatedAt := now } ∧
        booked.ID = old.ID ∧ booked.StartAt = old.StartAt ∧
        booked.EndAt = old.EndAt ∧ booked.CreatedAt = old.CreatedAt) := by
  constructor
  · intro now canceled j' h
    rcases CancelSlot_cases j slotID now with ⟨msg, he⟩ | ⟨old, hl, _, hok⟩
    · rw [he] at h
      cases h
    · rw [hok] at h
      cases h
      exact ⟨old, hl, AList.lookup_insert _, fun k hk => AList.lookup_insert_ne hk, rfl, rfl,
        rfl, rfl, rfl, rfl, rfl⟩
  · intro userID now booked j' h
    rcases BookSlot_cases j slotID userID now with ⟨msg, he⟩ | ⟨old, hl, _, _, hok⟩
    · rw [he] at h
      cases h
    · rw [hok] at h
      cases h
      exact ⟨old, hl, AList.lookup_insert _, fun k hk => AList.lookup_insert_ne hk, rfl, rfl,
        rfl, rfl, rfl, rfl⟩

/-- Witness of C16: `BookSlot("7", 99)` on `storeAB` and `CancelSlot("7")` on
`storeABooked`, the slot `"42"` of `storeAB` being another entry. -/
theorem CancelSlot_BookSlot_frame_witness :
    (∃ old, storeABooked.slots.lookup "7" = some old ∧
      (CancelSlot storeABooked "7" 4).2.slots.lookup "7" = some slotACanceled ∧
      (∀ k, k ≠ "7" →
        (CancelSlot storeABooked "7" 4).2.slots.lookup k = storeABooked.slots.lookup k) ∧
      (CancelSlot storeABooked "7" 4).2.dataPath = storeABooked.dataPath ∧
      slotACanceled = { old with Status := StatusCanceled, UpdatedAt := 4 } ∧
      slotACanceled.ID = old.ID ∧ slotACanceled.StartAt = old.StartAt ∧
      slotACanceled.EndAt = old.EndAt ∧ slotACanceled.CreatedAt = old.CreatedAt ∧
      slotACanceled.BookedBy = old.BookedBy) ∧
    (∃ old, storeAB.slots.lookup "7" = some old ∧
      (BookSlot storeAB "7" 99 3).2.slots.lookup "7" = some slotABooked ∧
      (∀ k, k ≠ "7" →
        (BookSlot storeAB "7" 99 3).2.slots.lookup k = storeAB.slots.lookup k) ∧
      (BookSlot storeAB "7" 99 3).2.dataPath = storeAB.dataPath ∧
      slotABooked = { old with Status := StatusBusy, BookedBy := 99, UpdatedAt := 3 } ∧
      slotABooked.ID = old.ID ∧ slotABooked.StartAt = old.StartAt ∧
      slotABooked.EndAt = old.EndAt ∧ slotABooked.CreatedAt = old.CreatedAt) :=
  ⟨(CancelSlot_BookSlot_frame storeABooked "7").1 4 slotACanceled
      (CancelSlot storeABooked "7" 4).2 rfl,
   (CancelSlot_BookSlot_frame storeAB "7").2 99 3 slotABooked
      (BookSlot storeAB "7" 99 3).2 rfl⟩

/-! ## Timestamps under a clock that never runs backwards -/

theorem ReachableAt_times {t : Int} {j : JsonStore} (h : ReachableAt t j) :
    ∀ id slot, j.slots.lookup id = some slot →
      slot.CreatedAt ≤ slot.UpdatedAt ∧ slot.UpdatedAt ≤ t := by
  induction h with
  | newStore t => intro id slot hl; simp [NewStore, AList.lookup_empty] at hl
  | createSlot t j startAt endAt rand now₁ now₂ fuel r j' _ ht hnow hc ih =>
    intro id slot hl
    cases r with
    | error msg =>
      rw [CreateSlot_error_unchanged hc] at hl
      have := ih id slot hl
      exact ⟨this.1, by omega⟩
    | ok new =>
      obtain ⟨_, _, _, hnew, rfl⟩ := CreateSlot_ok_inv hc
      rcases lookup_insert_cases hl with ⟨_, rfl⟩ | ⟨_, hl'⟩
      · rw [hnew]
        exact ⟨hnow, le_refl _⟩
      · have := ih id slot hl'
        exact ⟨this.1, by omega⟩
  | cancelSlot t j slotID now _ ht ih =>
    intro id slot hl
    rcases CancelSlot_cases j slotID now with ⟨msg, he⟩ | ⟨old, hold, _, hok⟩
    · rw [he] at hl
      have := ih id slot hl
      exact ⟨this.1, by omega⟩
    · rw [hok] at hl
      rcases lookup_insert_cases hl with ⟨_, rfl⟩ | ⟨_, hl'⟩
      · have := ih slotID old hold
        exact ⟨by show old.CreatedAt ≤ now; omega, le_refl _⟩
      · have := ih id slot hl'
        exact ⟨this.1, by omega⟩
  | bookSlot t j slotID userID now _ ht ih =>
    intro id slot hl
    rcases BookSlot_cases j slotID userID now with ⟨msg, he⟩ | ⟨old, hold, _, _, hok⟩
    · rw [he] at hl
      have := ih id slot hl
      exact ⟨this.1, by omega⟩
    · rw [hok] at hl
      rcases lookup_insert_cases hl with ⟨_, rfl⟩ | ⟨_, hl'⟩
      · have := ih slotID old hold
        exact ⟨by show old.CreatedAt ≤ now; omega, le_refl _⟩
      · have := ih id slot hl'
        exact ⟨this.1, by omega⟩
  | cancelBooking t j slotID userID _ ih =>
    intro id slot hl
    rw [CancelBooking_unchanged] at hl
    exact ih id slot hl

/-- C17: when the readings of the clock never decrease from one reading to
the next, every slot of every store reachable from the store of `NewStore` by
calls of `CreateSlot`, `CancelSlot`, `BookSlot` and `CancelBooking` satisfies
`UpdatedAt ≥ CreatedAt`. -/
theorem updatedAt_ge_createdAt (t : Int) (j : JsonStore) (hreach : ReachableAt t j)
    (id : String) (slot : Slot) (hl : j.slots.lookup id = some slot) :
    slot.UpdatedAt ≥ slot.CreatedAt :=
  (ReachableAt_times hreach id slot hl).1

/-- Witness of C17: the slot `"7"`, created at reading `1`, booked at `3` and
canceled at `4`. -/
theorem updatedAt_ge_createdAt_witness : slotACanceled.UpdatedAt ≥ slotACanceled.CreatedAt :=
  updatedAt_ge_createdAt 4 storeACanceled
    (ReachableAt.cancelSlot 3 storeABooked "7" 4
      (ReachableAt.bookSlot 1 storeA "7" 99 3
        (ReachableAt.createSlot 0 NewStore 10 20 sampleRand 1 1 1 (.ok slotA) storeA
          (ReachableAt.newStore 0) (by decide) (by decide) rfl)
        (by decide))
      (by decide))
    "7" slotACanceled rfl

/-! ## The mutex -/

/-- C18, the code at the failing input: `CancelBooking("7", 99)` on
`storeABooked` releases the mutex before its two lookups in the map, `Load`
on a fresh store and `Save` on a store with a path reach the map without ever
taking the mutex, so none of the three keeps the lock discipline, where the
specification has every method hold the lock across all its accesses;
`BookSlot("7", 99)` on the same store, which defers the release, keeps it. -/
theorem CancelBooking_reads_unlocked :
    CancelBookingEvents storeABooked "7" =
      [Event.lock, Event.unlock, Event.access, Event.access] ∧
    lockDiscipline false (CancelBookingEvents storeABooked "7") = false ∧
    lockDiscipline false (LoadEvents NewStore emptyDisk) = false ∧
    lockDiscipline false (SaveEvents { slots := storeA.slots, dataPath := "slots.json" }) =
      false ∧
    lockDiscipline false (BookSlotEvents storeABooked "7") = true :=
  ⟨rfl, rfl, rfl, rfl, rfl⟩

/-! ## Keys and ids -/

theorem Step_idIsNumeral {j j' : JsonStore} (h : Step j j')
    (inv : ∀ id slot, j.slots.lookup id = some slot → ∃ n : Nat, id = Nat.repr n) :
    ∀ id slot, j'.slots.lookup id = some slot → ∃ n : Nat, id = Nat.repr n := by
  intro k a ha
  rcases Step_effect h with rfl | ⟨id, slot, _, _, hn, _, _, _, _, rfl⟩ |
      ⟨id, slot, now, hl, _, rfl⟩ | ⟨id, slot, userID, now, hl, _, _, rfl⟩
  · exact inv k a ha
  · rcases lookup_insert_cases ha with ⟨hk, _⟩ | ⟨_, ha'⟩
    · rw [hk]
      exact hn
    · exact inv k a ha'
  · rcases lookup_insert_cases ha with ⟨hk, _⟩ | ⟨_, ha'⟩
    · rw [hk]
      exact inv id slot hl
    · exact inv k a ha'
  · rcases lookup_insert_cases ha with ⟨hk, _⟩ | ⟨_, ha'⟩
    · rw [hk]
      exact inv id slot hl
    · exact inv k a ha'

theorem Reachable_idIsNumeral {j : JsonStore} (h : Reachable j) :
    ∀ id slot, j.slots.lookup id = some slot → ∃ n : Nat, id = Nat.repr n := by
  induction h with
  | refl => intro id slot hl; simp [NewStore, AList.lookup_empty] at hl
  | tail _ hstep ih => exact Step_idIsNumeral hstep ih

theorem ListSlots_eq_values (j : JsonStore) :
    ListSlots j = j.slots.entries.map Sigma.snd := by
  simp [ListSlots, foldl_append_values]

/-- C19: in every store reachable from the store of `NewStore` by calls of
`CreateSlot`, `CancelSlot`, `BookSlot` and `CancelBooking`, every key of the
table maps to a slot whose `ID` is that key, and every such `ID` is a
non-empty string, the decimal rendering of a natural number; and the loop of
`Load`, run on the values of the table from an empty table, returns no error
and yields a table that stores under every key what the table stores, with
as many entries as the table. -/
theorem reachable_keys_are_ids (j : JsonStore) (hreach : Reachable j) :
    (∀ k slot, j.slots.lookup k = some slot →
      slot.ID = k ∧ slot.ID ≠ "" ∧ ∃ n : Nat, slot.ID = Nat.repr n) ∧
    (loadLoop ∅ (ListSlots j)).1 = none ∧
    (∀ k, (loadLoop ∅ (ListSlots j)).2.lookup k = j.slots.lookup k) ∧
    (loadLoop ∅ (ListSlots j)).2.entries.length = j.slots.entries.length := by
  have hkey := Reachable_keyIsID hreach
  have hent : ∀ x ∈ j.slots.entries, x.2.ID = x.1 ∧ x.1 ≠ "" := by
    rintro ⟨id, slot⟩ hx
    exact hkey id slot (Option.mem_def.mp (AList.mem_lookup_iff.mpr hx))
  have hids : ∀ s ∈ j.slots.entries.map Sigma.snd, s.ID ≠ "" := by
    intro s hs
    obtain ⟨x, hx, rfl⟩ := List.mem_map.mp hs
    rw [(hent x hx).1]
    exact (hent x hx).2
  have hlook : ∀ k, ((j.slots.entries.map Sigma.snd).foldl
      (fun (t : Table) (s : Slot) => t.insert s.ID s) ∅).lookup k = j.slots.lookup k := by
    intro k
    rw [lookup_foldl_insert j.slots.entries ∅ j.slots.nodupKeys (fun x hx => (hent x hx).1) k]
    simp only [AList.lookup_empty]
    show (j.slots.lookup k).orElse (fun _ => none) = j.slots.lookup k
    cases j.slots.lookup k <;> rfl
  rw [ListSlots_eq_values, loadLoop_ok _ ∅ hids]
  refine ⟨?_, rfl, hlook, ?_⟩
  · intro k slot hl
    obtain ⟨h₁, h₂⟩ := hkey k slot hl
    obtain ⟨n, hn⟩ := Reachable_idIsNumeral hreach k slot hl
    exact ⟨h₁, by rw [h₁]; exact h₂, n, by rw [h₁]; exact hn⟩
  · apply List.Perm.length_eq
    apply List.lookup_ext (AList.nodupKeys _) j.slots.nodupKeys
    intro x y
    have := hlook x
    unfold AList.lookup at this
    rw [this]

/-- Witness of C19: the two slots of `storeAB`. -/
theorem reachable_keys_are_ids_witness :
    (∀ k slot, storeAB.slots.lookup k = some slot →
      slot.ID = k ∧ slot.ID ≠ "" ∧ ∃ n : Nat, slot.ID = Nat.repr n) ∧
    (loadLoop ∅ (ListSlots storeAB)).1 = none ∧
    (∀ k, (loadLoop ∅ (ListSlots storeAB)).2.lookup k = storeAB.slots.lookup k) ∧
    (loadLoop ∅ (ListSlots storeAB)).2.entries.length = storeAB.slots.entries.length :=
  reachable_keys_are_ids storeAB storeAB_reachable

/-! ## A store without a persistence path -/

theorem Call_invariant (disk₀ : Disk) (p : JsonStore × Disk)
    (h : Relation.ReflTransGen Call (NewStore, disk₀) p) :
    p.1.dataPath = "" ∧ p.2 = disk₀ := by
  induction h with
  | refl => exact ⟨rfl, rfl⟩
  | tail _ hcall ih =>
    obtain ⟨hpath, hdisk⟩ := ih
    cases hcall with
    | mutate j j' disk hstep => exact ⟨(Step_dataPath hstep).trans hpath, hdisk⟩
    | load j disk =>
      have hj : j.dataPath = "" := hpath
      exact ⟨by simp [Load, hj], hdisk⟩
    | save j disk env =>
      have hj : j.dataPath = "" := hpath
      exact ⟨hpath, by simp [Save, hj]; exact hdisk⟩

/-- C20: for every store reached from the store of `NewStore` by any sequence
of calls of the repository, `Load` and `Save` among them, the persistence path
is empty and the file system is the one the sequence started with; on every
file system `Save` returns no error and leaves the file system as it is, and
`Load` returns no error and leaves the store as it is; and `Load` on the
store of `NewStore` leaves it as it is on every file system. -/
theorem NewStore_never_persists (disk₀ disk : Disk) (j : JsonStore)
    (hcalls : Relation.ReflTransGen Call (NewStore, disk₀) (j, disk)) :
    j.dataPath = "" ∧ disk = disk₀ ∧
    (∀ d env, Save j d env = (none, d)) ∧
    (∀ d, Load j d = (none, j)) ∧
    (∀ d, Load NewStore d = (none, NewStore)) := by
  obtain ⟨hpath, hdisk⟩ := Call_invariant disk₀ (j, disk) hcalls
  have hj : j.dataPath = "" := hpath
  exact ⟨hj, hdisk, fun d env => by simp [Save, hj], fun d => by simp [Load, hj],
    fun d => rfl⟩

/-- Witness of C20: `CreateSlot(10, 20)`, then `Save`, on a file system
without any file. -/
theorem NewStore_never_persists_witness :
    storeA.dataPath = "" ∧ (Save storeA emptyDisk noFailure).2 = emptyDisk ∧
    (∀ d env, Save storeA d env = (none, d)) ∧
    (∀ d, Load storeA d = (none, storeA)) ∧
    (∀ d, Load NewStore d = (none, NewStore)) :=
  NewStore_never_persists emptyDisk (Save storeA emptyDisk noFailure).2 storeA
    (Relation.ReflTransGen.tail
      (Relation.ReflTransGen.single
        (Call.mutate NewStore storeA emptyDisk
          (Step.createSlot NewStore 10 20 sampleRand 1 1 1 (.ok slotA) storeA rfl)))
      (Call.save storeA emptyDisk noFailure))

/-! ## Creation under a random source that repeats a key -/

theorem sampleStore_clear (id : String) (existing : Slot)
    (hlook : sampleStore.slots.lookup id = some existing)
    (hst : existing.Status ≠ StatusCanceled) :
    ¬ ((20 : Int) < existing.EndAt ∧ (30 : Int) > existing.StartAt) := by
  have hmem : (⟨id, existing⟩ : Sigma fun _ : String => Slot) ∈ sampleStore.slots.entries :=
    AList.mem_lookup_iff.mp (Option.mem_def.mpr hlook)
  have hent : sampleStore.slots.entries =
      [⟨"3", { ID := "3", StartAt := 20, EndAt := 30, Status := StatusCanceled, BookedBy := 0,
               CreatedAt := 2, UpdatedAt := 3 }⟩,
       ⟨"7", { ID := "7", StartAt := 10, EndAt := 20, Status := StatusFree, BookedBy := 0,
               CreatedAt := 1, UpdatedAt := 1 }⟩] := by decide
  rw [hent] at hmem
  simp only [List.mem_cons, List.mem_singleton, List.not_mem_nil, or_false] at hmem
  rcases hmem with h | h
  · cases h
    exact absurd rfl hst
  · cases h
    decide

/-- C1, counterexample: on the sample table the interval `[20, 30)` has
`startAt < endAt` and overlaps no slot other than a canceled one, and yet,
with a random source that returns the key `7` at every draw, no number of
draws lets `CreateSlot` return a slot (or return at all). -/
theorem CreateSlot_repeated_key_never_returns :
    (20 : Int) < 30 ∧
    (∀ id existing, sampleStore.slots.lookup id = some existing →
      existing.Status ≠ StatusCanceled →
      ¬ ((20 : Int) < existing.EndAt ∧ (30 : Int) > existing.StartAt)) ∧
    (¬ ∃ fuel slot j',
      CreateSlot sampleStore 20 30 stuckRand 5 6 fuel = some (.ok slot, j')) ∧
    ¬ ∃ fuel, (CreateSlot sampleStore 20 30 stuckRand 5 6 fuel).isSome = true := by
  have hb : ¬ Blocked sampleStore 20 30 := by
    rintro ⟨id, existing, hlook, hst, h₁, h₂⟩
    exact sampleStore_clear id existing hlook hst ⟨h₁, h₂⟩
  have hnone : ∀ fuel, CreateSlot sampleStore 20 30 stuckRand 5 6 fuel = none := by
    intro fuel
    rw [CreateSlot_clear sampleStore 20 30 stuckRand 5 6 fuel (by decide) hb,
      idLoop_none sampleStore.slots fuel stuckRand
        (fun _ _ => (by decide : (sampleStore.slots.lookup (Nat.repr 7)).isSome = true))]
    rfl
  refine ⟨by decide, sampleStore_clear, ?_, ?_⟩
  · rintro ⟨fuel, slot, j', h⟩
    rw [hnone fuel] at h
    cases h
  · rintro ⟨fuel, h⟩
    rw [hnone fuel] at h
    cases h

end store
